import Mathlib

/-!
# Skycoin daemon: peer lifecycle and broadcast API

A shallow embedding of `src/daemon/daemon.go`.  Pure helpers are Lean
functions; methods of `Daemon` pass the daemon state explicitly.  The external
components (pool, pex, chain engine) are represented by the log of calls made
to them, and their answers are functions of that log.
-/

namespace Skycoin

/-! ## divideHashes -/

/-- Go slice expression `l[lo:hi]` (for `lo ≤ hi ≤ len l`). -/
def slice {α : Type} (l : List α) (lo hi : Nat) : List α :=
  (l.drop lo).take (hi - lo)

/-- Body of the `for i := range hashes` loop of `divideHashes`.  The loop state
is `(j, hashesArray)`: when `len(hashes[j:i]) == n` a copy of `hashes[j:i]` is
appended and `j` becomes `i`. -/
def divideHashesStep {α : Type} (hashes : List α) (n : Int)
    (st : Nat × List (List α)) (i : Nat) : Nat × List (List α) :=
  if ((slice hashes st.1 i).length : Int) = n then
    (i, st.2 ++ [slice hashes st.1 i])
  else st

/-- State `(j, hashesArray)` of `divideHashes` after the guarded loop. -/
def divideHashesLoop {α : Type} (hashes : List α) (n : Int) : Nat × List (List α) :=
  if n < (hashes.length : Int) then
    (List.range hashes.length).foldl (divideHashesStep hashes n) (0, [])
  else (0, [])

/-- Function `divideHashes(hashes, n)` of daemon.go.  The element type `cipher.SHA256` is
never inspected, so the function is stated for any element type; `n` is a Go
`int` and may be zero or negative. -/
def divideHashes {α : Type} (hashes : List α) (n : Int) : List (List α) :=
  if hashes.length = 0 then []
  else
    (divideHashesLoop hashes n).2 ++
      [slice hashes (divideHashesLoop hashes n).1 hashes.length]

/-! ## Data model -/

/-- Go `error` values are identified with their message; `nil` is `none`. -/
abbrev Error := String

/-- Digest type `cipher.SHA256`, identified with the number its 32 bytes encode. -/
abbrev SHA256 := Nat

/-- Key type `cipher.PubKey`, identified with the number its bytes encode. -/
abbrev PubKey := Nat

/-- Go `int` addition: the exact sum wrapped to 64-bit two's complement. -/
def int64 (x : Int) : Int :=
  (x + 9223372036854775808) % 18446744073709551616 - 9223372036854775808

/-- The `gnet.DisconnectReason` values declared at the top of daemon.go. -/
inductive DisconnectReason where
  | ErrDisconnectVersionNotSupported
  | ErrDisconnectIntroductionTimeout
  | ErrDisconnectVersionSendFailed
  | ErrDisconnectIsBlacklisted
  | ErrDisconnectSelf
  | ErrDisconnectConnectedTwice
  | ErrDisconnectIdle
  | ErrDisconnectNoIntroduction
  | ErrDisconnectIPLimitReached
  | ErrDisconnectIncomprehensibleError
  | ErrDisconnectMaxOutgoingConnectionsReached
  | ErrDisconnectBlockchainPubkeyNotMatched
  | ErrDisconnectInvalidExtraData
  /-- A reason declared outside daemon.go (the pool has some of its own). -/
  | Other (reason : String)
  deriving DecidableEq, Repr

/-- Record `DaemonConfig` of daemon.go.  Durations are nanoseconds, Go `int` fields
are integers. -/
structure DaemonConfig where
  ProtocolVersion : Int
  MinProtocolVersion : Int
  Address : String
  BlockchainPubkey : PubKey
  Port : Int
  DataDirectory : String
  OutgoingRate : Int
  PrivateRate : Int
  OutgoingMax : Int
  PendingMax : Int
  IntroductionWait : Int
  CullInvalidRate : Int
  FlushAnnouncedTxnsRate : Int
  IPCountsMax : Int
  DisableNetworking : Bool
  DisableOutgoingConnections : Bool
  DisableIncomingConnections : Bool
  LocalhostOnly : Bool
  LogPings : Bool
  BlocksRequestRate : Int
  BlocksAnnounceRate : Int
  BlocksResponseCount : Nat
  MaxTxnAnnounceNum : Int
  BlockCreationInterval : Nat
  UnconfirmedRefreshRate : Int
  UnconfirmedRemoveInvalidRate : Int
  DefaultConnections : List String
  deriving DecidableEq, Repr

/-- Defaults of `NewDaemonConfig()` in daemon.go (one second is `1000000000` ns). -/
def NewDaemonConfig : DaemonConfig where
  ProtocolVersion := 2
  MinProtocolVersion := 2
  Address := ""
  BlockchainPubkey := 0
  Port := 6677
  DataDirectory := ""
  OutgoingRate := 5000000000
  PrivateRate := 5000000000
  OutgoingMax := 8
  PendingMax := 8
  IntroductionWait := 30000000000
  CullInvalidRate := 3000000000
  FlushAnnouncedTxnsRate := 3000000000
  IPCountsMax := 3
  DisableNetworking := false
  DisableOutgoingConnections := false
  DisableIncomingConnections := false
  LocalhostOnly := false
  LogPings := true
  BlocksRequestRate := 60000000000
  BlocksAnnounceRate := 60000000000
  BlocksResponseCount := 20
  MaxTxnAnnounceNum := 16
  BlockCreationInterval := 10
  UnconfirmedRefreshRate := 60000000000
  UnconfirmedRemoveInvalidRate := 60000000000
  DefaultConnections := []

/-- Modelled from the spec: the type `coin.Transaction` is declared outside
daemon.go; the daemon only forwards transactions and reads their hash. -/
structure Transaction where
  Hash : SHA256
  Body : Nat
  deriving DecidableEq, Repr

/-- Modelled from the spec: the type `coin.SignedBlock` is declared outside
daemon.go; the daemon only forwards blocks and logs their head sequence. -/
structure SignedBlock where
  BkSeq : Nat
  Body : Nat
  deriving DecidableEq, Repr

/-- Modelled from the spec: the type `pex.Peer` is declared outside daemon.go;
a directory entry with its address and its trusted and private flags. -/
structure Peer where
  Addr : String
  Trusted : Bool
  Private : Bool
  deriving DecidableEq, Repr

/-- Modelled from the spec: the message types are declared in messages.go, which
is not part of the covered source; the closed sum of section 4.6, with the
payloads the `New...Message` constructors of daemon.go are given. -/
inductive Message where
  | Introduction (mirror : Nat) (version : Int) (port : Int) (pubkey : PubKey)
  | GetPeers
  | Peers (addrs : List String)
  | Ping
  | Pong
  | GetBlocks (lastBlock : Nat) (requestedBlocks : Nat)
  | GiveBlocks (blocks : List SignedBlock)
  | AnnounceBlocks (maxBkSeq : Nat)
  | GetTxns (hashes : List SHA256)
  | GiveTxns (txns : List Transaction)
  | AnnounceTxns (hashes : List SHA256)
  deriving DecidableEq, Repr

/-- The type assertion `e.Message.(*IntroductionMessage)` of
`processMessageEvent`. -/
def Message.isIntroduction : Message → Bool
  | Message.Introduction _ _ _ _ => true
  | _ => false

/-- Modelled from the spec: `gnet.MessageContext` is declared outside daemon.go;
the envelope carries the originating connection's address. -/
structure MessageContext where
  Addr : String
  ConnID : Nat
  deriving DecidableEq, Repr

/-- Record `messageEvent` of daemon.go. -/
structure messageEvent where
  Message : Message
  Context : MessageContext
  deriving DecidableEq, Repr

/-- Record `ConnectEvent` of daemon.go. -/
structure ConnectEvent where
  Addr : String
  Solicited : Bool
  deriving DecidableEq, Repr

/-- Record `DisconnectEvent` of daemon.go. -/
structure DisconnectEvent where
  Addr : String
  Reason : DisconnectReason
  deriving DecidableEq, Repr

/-- Modelled from the spec: the type `visor.UnconfirmedTxn` is declared outside
daemon.go; an entry of the unconfirmed pool, holding the transaction and the
times at which it was received, checked and announced. -/
structure UnconfirmedTxn where
  Transaction : Transaction
  Received : Int
  Checked : Int
  Announced : Int
  deriving DecidableEq, Repr

/-! ## Connection table -/

/-- Modelled from the spec: `ConnectionState` is declared in connections.go,
which is not part of the covered source; section 3 gives the three states. -/
inductive ConnectionState where
  | Pending
  | Connected
  | Introduced
  deriving DecidableEq, Repr

/-- Modelled from the spec: `connection` is declared in connections.go; the
fields are those of section 3, with times in nanoseconds. -/
structure connection where
  Addr : String
  State : ConnectionState
  Outgoing : Bool
  ConnectedAt : Int
  Mirror : Nat
  ListenPort : Nat
  ProtocolVersion : Int
  Height : Nat
  HasIncomingPort : Bool
  deriving DecidableEq, Repr

/-- Modelled from the spec: `connection.HasIntroduced` is declared in
connections.go; a connection has introduced once its state is `Introduced`. -/
def connection.HasIntroduced (c : connection) : Bool :=
  c.State == ConnectionState.Introduced

/-- Modelled from the spec: `Connections` is declared in connections.go; "a
mapping address → Connection plus a secondary mapping base IP → count".  Rows
are kept in insertion order. -/
structure Connections where
  conns : List connection
  ipCounts : List (String × Nat)
  deriving DecidableEq, Repr

/-- Modelled from the spec: `NewConnections` is declared in connections.go; the
empty table. -/
def NewConnections : Connections := ⟨[], []⟩

/-- Modelled from the spec: `Connections.get` is declared in connections.go; the
row keyed by `addr`, if any (Go returns `nil` when there is none). -/
def Connections.get (c : Connections) (addr : String) : Option connection :=
  c.conns.find? (fun r => r.Addr == addr)

/-- Modelled from the spec: `Connections.IPCount` is declared in connections.go;
the read-only view `ipCount(ip)` of the secondary mapping, `0` for an unknown
base IP. -/
def Connections.IPCount (c : Connections) (ip : String) : Nat :=
  match c.ipCounts.find? (fun e => e.1 == ip) with
  | some e => e.2
  | none => 0

/-- Modelled from the spec: `Connections.PendingLen` is declared in
connections.go; the number of rows in state `Pending`. -/
def Connections.PendingLen (c : Connections) : Nat :=
  (c.conns.filter (fun r => r.State == ConnectionState.Pending)).length

/-- Modelled from the spec: `Connections.OutgoingLen` is declared in
connections.go; the number of outgoing rows. -/
def Connections.OutgoingLen (c : Connections) : Nat :=
  (c.conns.filter (fun r => r.Outgoing)).length

/-- Modelled from the spec: `Connections.all` is declared in connections.go; a
snapshot of every row. -/
def Connections.all (c : Connections) : List connection := c.conns

/-- Adds one to the count kept for base IP `ip`. -/
def incrIPCount (counts : List (String × Nat)) (ip : String) : List (String × Nat) :=
  match counts with
  | [] => [(ip, 1)]
  | e :: rest => if e.1 == ip then (e.1, e.2 + 1) :: rest else e :: incrIPCount rest ip

/-- Modelled from the spec: `Connections.pending` is declared in connections.go;
"create a row with state Pending, outgoing true. Fails if addr is already
present."  The table is keyed by `host:port` addresses and the row counts
towards its base IP, so an address that does not split is refused as well. -/
def Connections.pending (c : Connections) (splitAddr : String → Option (String × Nat))
    (addr : String) : Except Error (connection × Connections) :=
  match splitAddr addr with
  | none => Except.error "invalid address"
  | some (ip, port) =>
    match c.get addr with
    | some _ => Except.error "connection exists"
    | none =>
      let row : connection :=
        ⟨addr, ConnectionState.Pending, true, 0, 0, port, 0, 0, false⟩
      Except.ok (row, ⟨c.conns ++ [row], incrIPCount c.ipCounts ip⟩)

/-- Subtracts one from the count kept for base IP `ip`. -/
def decrIPCount (counts : List (String × Nat)) (ip : String) : List (String × Nat) :=
  counts.map (fun e => if e.1 == ip then (e.1, e.2 - 1) else e)

/-- Replaces the row keyed by `addr`. -/
def setRow (rows : List connection) (addr : String) (row : connection) : List connection :=
  rows.map (fun r => if r.Addr == addr then row else r)

/-- Modelled from the spec: `Connections.connected` is declared in
connections.go; "if a Pending row exists, advance to Connected; else create a
row with Connected, outgoing false. Sets connectedAt to now."  The table is
keyed by `host:port` addresses, so an address that does not split is refused;
the state only moves along Pending, Connected, Introduced, so a row that is
already past `Pending` is refused as well. -/
def Connections.connected (c : Connections) (splitAddr : String → Option (String × Nat))
    (addr : String) (now : Int) : Except Error (connection × Connections) :=
  match splitAddr addr with
  | none => Except.error "invalid address"
  | some (ip, _) =>
    match c.get addr with
    | none =>
      let row : connection :=
        ⟨addr, ConnectionState.Connected, false, now, 0, 0, 0, 0, false⟩
      Except.ok (row, ⟨c.conns ++ [row], incrIPCount c.ipCounts ip⟩)
    | some r =>
      if r.State == ConnectionState.Pending then
        let row : connection := { r with State := ConnectionState.Connected, ConnectedAt := now }
        Except.ok (row, ⟨setRow c.conns addr row, c.ipCounts⟩)
      else Except.error "connection is not pending"

/-- Modelled from the spec: `Connections.remove` is declared in connections.go;
"decrement the IP count; delete the row. Idempotent on absent rows (returns a
soft error used only for logging)." -/
def Connections.remove (c : Connections) (splitAddr : String → Option (String × Nat))
    (addr : String) : Except Error Connections :=
  match c.get addr with
  | none => Except.error "connection not found"
  | some _ =>
    let counts :=
      match splitAddr addr with
      | some (ip, _) => decrIPCount c.ipCounts ip
      | none => c.ipCounts
    Except.ok ⟨c.conns.filter (fun r => r.Addr != addr), counts⟩

/-! ## External components -/

/-- A call made by the daemon to one of its external collaborators: the pool,
the pex directory, the chain engine (visor), or the process effect of a
message. -/
inductive Call where
  | poolConnect (addr : String)
  | poolDisconnect (addr : String) (r : DisconnectReason)
  | poolSendMessage (addr : String) (m : Message)
  | poolBroadcastMessage (m : Message)
  | poolSize
  | poolIsConnExist (addr : String)
  | poolOutgoingConnectionsNum
  | pexGetPeer (addr : String)
  | pexRemovePeer (addr : String)
  | visorCreateAndExecuteBlock
  | visorGetAllUnconfirmedTransactions
  | visorGetAllValidUnconfirmedTxHashes
  | pexPrivate
  | pexTrusted
  | pexTrustedPublic
  | pexRandomPublicUntrusted (n : Int)
  | pexResetAllRetryTimes
  | visorHeadBkSeq
  | messageProcess (e : messageEvent)
  deriving DecidableEq, Repr

/-- Answers of the code that lies outside daemon.go.  The address helpers of
`iputil` are pure; every answer of the pool, pex and chain engine may depend on
the calls made so far. -/
structure Env where
  /-- Result of `iputil.SplitAddr`: base IP and port, `none` when it returns an error. -/
  splitAddr : String → Option (String × Nat)
  /-- Result of `iputil.IsLocalhost`. -/
  isLocalhost : String → Bool
  /-- Error returned by `Pool.Disconnect`. -/
  poolDisconnect : List Call → String → DisconnectReason → Option Error
  /-- Error returned by `Pool.SendMessage`. -/
  poolSendMessage : List Call → String → Message → Option Error
  /-- Error returned by `Pool.BroadcastMessage`. -/
  poolBroadcastMessage : List Call → Message → Option Error
  /-- Result of `Pool.Size`. -/
  poolSize : List Call → Except Error Int
  /-- Result of `pex.Private`. -/
  pexPrivate : List Call → List Peer
  /-- Result of `pex.Trusted`. -/
  pexTrusted : List Call → List Peer
  /-- Result of `pex.TrustedPublic`. -/
  pexTrustedPublic : List Call → List Peer
  /-- Result of `pex.RandomPublicUntrusted`. -/
  pexRandomPublicUntrusted : List Call → Int → List Peer
  /-- Result `(headSeq, ok, err)` of `visor.HeadBkSeq`. -/
  visorHeadBkSeq : List Call → Nat × Bool × Option Error
  /-- Effect of `Message.process` on the connection table, and the calls it
  makes to the external components. -/
  messageProcess : List Call → Connections → messageEvent → Connections × List Call
  /-- Result of `iputil.LocalhostIP`. -/
  localhostIP : Except Error String
  /-- Value of `dm.Messages.Mirror`. -/
  messagesMirror : Nat
  /-- Value of `dm.pool.Pool.Config.Port`. -/
  poolConfigPort : Int
  /-- Result of `Pool.IsConnExist`. -/
  poolIsConnExist : List Call → String → Except Error Bool
  /-- Result of `Pool.OutgoingConnectionsNum`. -/
  poolOutgoingConnectionsNum : List Call → Except Error Int
  /-- Result `(peer, ok)` of `pex.GetPeer`: `none` when `ok` is false. -/
  pexGetPeer : List Call → String → Option Peer
  /-- Result of `visor.CreateAndExecuteBlock`. -/
  visorCreateAndExecuteBlock : List Call → Except Error SignedBlock
  /-- Result of `visor.GetAllUnconfirmedTransactions`. -/
  visorGetAllUnconfirmedTransactions : List Call → Except Error (List UnconfirmedTxn)
  /-- Result of `visor.GetAllValidUnconfirmedTxHashes`. -/
  visorGetAllValidUnconfirmedTxHashes : List Call → Except Error (List SHA256)

/-- The state of `Daemon` that the run loop owns: the configuration, the
connection table, and the log of the calls made so far to the external
components behind the `pool`, `pex` and `visor` fields. -/
structure Daemon where
  Config : DaemonConfig
  connections : Connections
  calls : List Call
  deriving DecidableEq, Repr

/-- Appends a call to the log. -/
def Daemon.record (dm : Daemon) (c : Call) : Daemon :=
  { dm with calls := dm.calls ++ [c] }

/-! ## Calls to the external components -/

/-- Call `dm.pool.Pool.Disconnect(addr, r)`, as made by `Daemon.Disconnect`. -/
def Daemon.Disconnect (env : Env) (dm : Daemon) (addr : String) (r : DisconnectReason) :
    Daemon × Option Error :=
  (dm.record (Call.poolDisconnect addr r), env.poolDisconnect dm.calls addr r)

/-- Call `dm.pool.Pool.SendMessage(addr, msg)`, as made by `Daemon.SendMessage`. -/
def Daemon.SendMessage (env : Env) (dm : Daemon) (addr : String) (msg : Message) :
    Daemon × Option Error :=
  (dm.record (Call.poolSendMessage addr msg), env.poolSendMessage dm.calls addr msg)

/-- Call `dm.pool.Pool.BroadcastMessage(msg)`, as made by
`Daemon.BroadcastMessage`. -/
def Daemon.BroadcastMessage (env : Env) (dm : Daemon) (msg : Message) :
    Daemon × Option Error :=
  (dm.record (Call.poolBroadcastMessage msg), env.poolBroadcastMessage dm.calls msg)

/-- Call `dm.visor.HeadBkSeq()`, as made by `Daemon.HeadBkSeq`. -/
def Daemon.HeadBkSeq (env : Env) (dm : Daemon) : Daemon × (Nat × Bool × Option Error) :=
  (dm.record Call.visorHeadBkSeq, env.visorHeadBkSeq dm.calls)

/-! ## Outgoing solicitor -/

/-- Method `Daemon.connectToPeer`.  The dial itself runs on its own goroutine;
the request to the pool is logged, and a failure of the dial comes back later
as a `ConnectionError` event. -/
def Daemon.connectToPeer (env : Env) (dm : Daemon) (p : Peer) : Daemon × Option Error :=
  if dm.Config.DisableOutgoingConnections then
    (dm, some "Outgoing connections disabled")
  else
    match env.splitAddr p.Addr with
    | none => (dm, some "Invalid peer")
    | some (a, _) =>
      if dm.Config.LocalhostOnly && !env.isLocalhost a then
        (dm, some "Not localhost")
      else
        match dm.connections.get p.Addr with
        | some _ => (dm, some "Already connected to this peer")
        | none =>
          if !dm.Config.LocalhostOnly && dm.connections.IPCount a != 0 then
            (dm, some "Already connected to a peer with this base IP")
          else
            match dm.connections.pending env.splitAddr p.Addr with
            | Except.error err => (dm, some err)
            | Except.ok (_, conns) =>
              (({ dm with connections := conns } : Daemon).record (Call.poolConnect p.Addr),
                none)

/-- The loop `for _, p := range peers` shared by the three dial policies: each
peer is dialled and a dial error is only logged. -/
def Daemon.connectToPeers (env : Env) (dm : Daemon) (peers : List Peer) : Daemon :=
  peers.foldl (fun d p => (d.connectToPeer env p).1) dm

/-- Method `Daemon.makePrivateConnections`. -/
def Daemon.makePrivateConnections (env : Env) (dm : Daemon) : Daemon :=
  if dm.Config.DisableOutgoingConnections then dm
  else
    (dm.record Call.pexPrivate).connectToPeers env (env.pexPrivate dm.calls)

/-- Method `Daemon.connectToTrustPeer`. -/
def Daemon.connectToTrustPeer (env : Env) (dm : Daemon) : Daemon :=
  if dm.Config.DisableOutgoingConnections then dm
  else
    (dm.record Call.pexTrustedPublic).connectToPeers env (env.pexTrustedPublic dm.calls)

/-- Method `Daemon.connectToRandomPeer`. -/
def Daemon.connectToRandomPeer (env : Env) (dm : Daemon) : Daemon :=
  if dm.Config.DisableOutgoingConnections then dm
  else
    let peers := env.pexRandomPublicUntrusted dm.calls dm.Config.OutgoingMax
    let dm1 := (dm.record (Call.pexRandomPublicUntrusted dm.Config.OutgoingMax)).connectToPeers
      env peers
    if peers.length = 0 then dm1.record Call.pexResetAllRetryTimes else dm1

/-- The start-up step of `Daemon.Run` that dials the trusted peers. -/
def Daemon.runTrustedDial (env : Env) (dm : Daemon) : Daemon :=
  if !dm.Config.DisableOutgoingConnections then dm.connectToTrustPeer env else dm

/-- The `outgoingConnectionsTicker` branch of `Daemon.Run`. -/
def Daemon.runOutgoingConnectionsTick (env : Env) (dm : Daemon) : Daemon :=
  let trustPeerNum : Int := (env.pexTrusted dm.calls).length
  let dm1 := dm.record Call.pexTrusted
  if !dm1.Config.DisableOutgoingConnections &&
      decide ((dm1.connections.OutgoingLen : Int) < int64 (dm1.Config.OutgoingMax + trustPeerNum)) &&
      decide ((dm1.connections.PendingLen : Int) < dm1.Config.PendingMax) then
    dm1.connectToRandomPeer env
  else dm1

/-- The `privateConnectionsTicker` branch of `Daemon.Run`. -/
def Daemon.runPrivateConnectionsTick (env : Env) (dm : Daemon) : Daemon :=
  if !dm.Config.DisableOutgoingConnections then dm.makePrivateConnections env else dm

/-- The daemon with `Config.PendingMax` replaced by `x` and everything else
kept. -/
def Daemon.setPendingMax (dm : Daemon) (x : Int) : Daemon :=
  { dm with Config := { dm.Config with PendingMax := x } }

/-- The dial policies of the run loop. -/
inductive DialPolicy where
  | trusted
  | privateTick
  | outgoingTick
  deriving DecidableEq, Repr

/-- One step of the run loop restricted to its dial policies. -/
def Daemon.runDialPolicy (env : Env) (dm : Daemon) : DialPolicy → Daemon
  | DialPolicy.trusted => dm.runTrustedDial env
  | DialPolicy.privateTick => dm.runPrivateConnectionsTick env
  | DialPolicy.outgoingTick => dm.runOutgoingConnectionsTick env

/-- A run of dial policy steps, in order. -/
def Daemon.runDialPolicies (env : Env) (dm : Daemon) (steps : List DialPolicy) : Daemon :=
  steps.foldl (fun d s => d.runDialPolicy env s) dm

/-! ## Handshake gate -/

/-- Method `Daemon.cullInvalidConnections`; `now` is the value of
`time.Now().UTC()`, `Add` is addition and `Before` is `<` on nanoseconds. -/
def Daemon.cullInvalidConnections (env : Env) (dm : Daemon) (now : Int) : Daemon :=
  dm.connections.all.foldl
    (fun d c =>
      if c.State != ConnectionState.Connected then d
      else if c.ConnectedAt + dm.Config.IntroductionWait < now then
        (d.Disconnect env c.Addr DisconnectReason.ErrDisconnectIntroductionTimeout).1
      else d)
    dm

/-- Method `Daemon.needsIntro`. -/
def Daemon.needsIntro (dm : Daemon) (addr : String) : Bool :=
  match dm.connections.get addr with
  | none => false
  | some c => !c.HasIntroduced

/-- Call `e.Message.process(dm)`: the call is logged, then the connection table
and the log take the effect of the message. -/
def Daemon.messageProcess (env : Env) (dm : Daemon) (e : messageEvent) : Daemon :=
  let r := env.messageProcess dm.calls dm.connections e
  { dm with connections := r.1, calls := dm.calls ++ [Call.messageProcess e] ++ r.2 }

/-- Method `Daemon.processMessageEvent`. -/
def Daemon.processMessageEvent (env : Env) (dm : Daemon) (e : messageEvent) : Daemon :=
  let dm1 :=
    if dm.needsIntro e.Context.Addr then
      if !e.Message.isIntroduction then
        (dm.Disconnect env e.Context.Addr DisconnectReason.ErrDisconnectNoIntroduction).1
      else dm
    else dm
  dm1.messageProcess env e

/-! ## Broadcast API -/

/-- Method `Daemon.RequestBlocks`. -/
def Daemon.RequestBlocks (env : Env) (dm : Daemon) : Daemon × Option Error :=
  if dm.Config.DisableOutgoingConnections then (dm, none)
  else
    match dm.HeadBkSeq env with
    | (dm1, (_, _, some err)) => (dm1, some err)
    | (dm1, (_, false, none)) => (dm1, some "Cannot request blocks, there is no head block")
    | (dm1, (headSeq, true, none)) =>
      dm1.BroadcastMessage env (Message.GetBlocks headSeq dm1.Config.BlocksResponseCount)

/-- Method `Daemon.AnnounceBlocks`. -/
def Daemon.AnnounceBlocks (env : Env) (dm : Daemon) : Daemon × Option Error :=
  if dm.Config.DisableOutgoingConnections then (dm, none)
  else
    match dm.HeadBkSeq env with
    | (dm1, (_, _, some err)) => (dm1, some err)
    | (dm1, (_, false, none)) => (dm1, some "Cannot announce blocks, there is no head block")
    | (dm1, (headSeq, true, none)) =>
      dm1.BroadcastMessage env (Message.AnnounceBlocks headSeq)

/-- Method `Daemon.AnnounceTxns`. -/
def Daemon.AnnounceTxns (env : Env) (dm : Daemon) (txns : List SHA256) :
    Daemon × Option Error :=
  if dm.Config.DisableOutgoingConnections then (dm, none)
  else if txns.length = 0 then (dm, none)
  else dm.BroadcastMessage env (Message.AnnounceTxns txns)

/-- The error value `ErrOutgoingConnectionsDisabled`. -/
def ErrOutgoingConnectionsDisabled : Error := "Outgoing connections are disabled"

/-- Method `Daemon.BroadcastTransaction`. -/
def Daemon.BroadcastTransaction (env : Env) (dm : Daemon) (t : Transaction) :
    Daemon × Option Error :=
  if dm.Config.DisableOutgoingConnections then (dm, some ErrOutgoingConnectionsDisabled)
  else
    match env.poolSize dm.calls with
    | Except.error err => (dm.record Call.poolSize, some err)
    | Except.ok _ => (dm.record Call.poolSize).BroadcastMessage env (Message.GiveTxns [t])

/-! ## Connect and disconnect events -/

/-- Method `Daemon.ipCountMaxed`. -/
def Daemon.ipCountMaxed (env : Env) (dm : Daemon) (addr : String) : Bool :=
  match env.splitAddr addr with
  | none => true
  | some (ip, _) =>
    !dm.Config.LocalhostOnly &&
      decide (dm.Config.IPCountsMax ≤ (dm.connections.IPCount ip : Int))

/-- The end of `Daemon.onConnect`, from "Update the connections state machine"
on: the row is advanced to `Connected` and our Introduction is sent.  A row
whose `Outgoing` differs from `e.Solicited` and a failed send are only logged. -/
def Daemon.onConnectAdmitted (env : Env) (dm : Daemon) (e : ConnectEvent) (now : Int) :
    Daemon :=
  match dm.connections.connected env.splitAddr e.Addr now with
  | Except.error _ =>
    (dm.Disconnect env e.Addr DisconnectReason.ErrDisconnectIncomprehensibleError).1
  | Except.ok (_, conns) =>
    ((({ dm with connections := conns } : Daemon).SendMessage env e.Addr
      (Message.Introduction env.messagesMirror dm.Config.ProtocolVersion env.poolConfigPort
        dm.Config.BlockchainPubkey))).1

/-- Method `Daemon.onConnect`; `now` is the time at which
`connections.connected` stamps the row. -/
def Daemon.onConnect (env : Env) (dm : Daemon) (e : ConnectEvent) (now : Int) : Daemon :=
  let dm1 := dm.record (Call.poolIsConnExist e.Addr)
  match env.poolIsConnExist dm.calls e.Addr with
  | Except.error _ => dm1
  | Except.ok false => dm1
  | Except.ok true =>
    if dm1.ipCountMaxed env e.Addr then
      (dm1.Disconnect env e.Addr DisconnectReason.ErrDisconnectIPLimitReached).1
    else if e.Solicited then
      let dm2 := dm1.record Call.poolOutgoingConnectionsNum
      match env.poolOutgoingConnectionsNum dm1.calls with
      | Except.error _ => dm2
      | Except.ok n =>
        if dm2.Config.OutgoingMax < n then
          (dm2.Disconnect env e.Addr
            DisconnectReason.ErrDisconnectMaxOutgoingConnectionsReached).1
        else dm2.onConnectAdmitted env e now
    else dm1.onConnectAdmitted env e now

/-- Method `Daemon.isTrustedPeer`. -/
def Daemon.isTrustedPeer (env : Env) (dm : Daemon) (addr : String) : Daemon × Bool :=
  (dm.record (Call.pexGetPeer addr),
    match env.pexGetPeer dm.calls addr with
    | none => false
    | some peer => peer.Trusted)

/-- Method `Daemon.onDisconnect`. -/
def Daemon.onDisconnect (env : Env) (dm : Daemon) (e : DisconnectEvent) : Daemon :=
  let dm1 : Daemon :=
    match dm.connections.remove env.splitAddr e.Addr with
    | Except.error _ => dm
    | Except.ok conns => { dm with connections := conns }
  if e.Reason = DisconnectReason.ErrDisconnectIntroductionTimeout then
    if !(dm1.isTrustedPeer env e.Addr).2 then
      (dm1.isTrustedPeer env e.Addr).1.record (Call.pexRemovePeer e.Addr)
    else (dm1.isTrustedPeer env e.Addr).1
  else dm1

/-! ## Block publishing and transaction resend -/

/-- Method `Daemon.broadcastBlock`. -/
def Daemon.broadcastBlock (env : Env) (dm : Daemon) (sb : SignedBlock) :
    Daemon × Option Error :=
  if dm.Config.DisableOutgoingConnections then (dm, none)
  else dm.BroadcastMessage env (Message.GiveBlocks [sb])

/-- Method `Daemon.CreateAndPublishBlock`; the pointer result is `none` for
`nil`. -/
def Daemon.CreateAndPublishBlock (env : Env) (dm : Daemon) :
    Daemon × Option SignedBlock × Option Error :=
  if dm.Config.DisableOutgoingConnections then
    (dm, none, some "Outgoing connections disabled")
  else
    match env.visorCreateAndExecuteBlock dm.calls with
    | Except.error err => (dm.record Call.visorCreateAndExecuteBlock, none, some err)
    | Except.ok sb =>
      (((dm.record Call.visorCreateAndExecuteBlock).broadcastBlock env sb).1, some sb,
        ((dm.record Call.visorCreateAndExecuteBlock).broadcastBlock env sb).2)

/-- Body of the loop `for i := range txns` of `ResendUnconfirmedTxns`; the loop
state is the daemon and `txids`. -/
def Daemon.resendStep (env : Env) (st : Daemon × List SHA256) (txn : UnconfirmedTxn) :
    Daemon × List SHA256 :=
  match st.1.BroadcastTransaction env txn.Transaction with
  | (dm1, none) => (dm1, st.2 ++ [txn.Transaction.Hash])
  | (dm1, some _) => (dm1, st.2)

/-- Method `Daemon.ResendUnconfirmedTxns`. -/
def Daemon.ResendUnconfirmedTxns (env : Env) (dm : Daemon) :
    Daemon × List SHA256 × Option Error :=
  if dm.Config.DisableOutgoingConnections then (dm, [], none)
  else
    match env.visorGetAllUnconfirmedTransactions dm.calls with
    | Except.error err => (dm.record Call.visorGetAllUnconfirmedTransactions, [], some err)
    | Except.ok txns =>
      ((txns.foldl (Daemon.resendStep env)
          (dm.record Call.visorGetAllUnconfirmedTransactions, [])).1,
        (txns.foldl (Daemon.resendStep env)
          (dm.record Call.visorGetAllUnconfirmedTransactions, [])).2,
        none)

/-- For each transaction of the list, in order, whether `BroadcastTransaction`
returns `nil` when the transactions are broadcast one after the other. -/
def Daemon.broadcastSucceeds (env : Env) (dm : Daemon) : List UnconfirmedTxn → List Bool
  | [] => []
  | txn :: rest =>
    ((dm.BroadcastTransaction env txn.Transaction).2 == none) ::
      Daemon.broadcastSucceeds env (dm.BroadcastTransaction env txn.Transaction).1 rest

/-! ## Configuration -/

/-- Modelled from the spec: the type `PoolConfig` is declared outside daemon.go;
the local bind address and port, and the channel sizing bounds. -/
structure PoolConfig where
  address : String
  port : Int
  MaxConnections : Int
  EventChannelSize : Int
  deriving DecidableEq, Repr

/-- Modelled from the spec: the type `pex.Config` is declared outside daemon.go;
whether pex is disabled, whether it admits localhost peers, and its request
period. -/
structure PexConfig where
  Disabled : Bool
  AllowLocalhost : Bool
  RequestRate : Int
  deriving DecidableEq, Repr

/-- Record `Config` of daemon.go, restricted to the sub-configurations that
`preprocess` reads or writes (`Messages`, `Gateway` and `Visor` are copied
untouched). -/
structure Config where
  Daemon : DaemonConfig
  Pool : PoolConfig
  Pex : PexConfig
  deriving DecidableEq, Repr

/-- The localhost-only block of `Config.preprocess`; `none` when
`logger.Panicf` is reached. -/
def Config.preprocessLocalhost (env : Env) (config : Config) : Option Config :=
  if config.Daemon.LocalhostOnly then
    if config.Daemon.Address = "" then
      match env.localhostIP with
      | Except.error _ => none
      | Except.ok localIP =>
        some { config with
          Daemon := { config.Daemon with Address := localIP }
          Pex := { config.Pex with AllowLocalhost := true } }
    else if !env.isLocalhost config.Daemon.Address then none
    else some { config with Pex := { config.Pex with AllowLocalhost := true } }
  else some config

/-- The rest of `Config.preprocess`, from `config.Pool.port = ...` on. -/
def Config.preprocessNetworking (config : Config) : Config :=
  let config1 : Config :=
    { config with
      Pool := { config.Pool with port := config.Daemon.Port, address := config.Daemon.Address } }
  if config1.Daemon.DisableNetworking then
    { config1 with
      Pex := { config1.Pex with Disabled := true }
      Daemon := { config1.Daemon with
        DisableIncomingConnections := true
        DisableOutgoingConnections := true } }
  else config1

/-- Method `Config.preprocess`; `none` when it panics. -/
def Config.preprocess (env : Env) (cfg : Config) : Option Config :=
  (Config.preprocessLocalhost env cfg).map Config.preprocessNetworking

/-! ## Wallet directory loading (wallets.go) -/

/-- Entry of a directory listing (`os.FileInfo`): its name and whether
`Mode().IsRegular()` holds. -/
structure FileInfo where
  Name : String
  IsRegular : Bool
  deriving DecidableEq, Repr

/-- Go `strings.HasSuffix`. -/
def HasSuffix (s suffix : String) : Bool :=
  suffix.data.isSuffixOf s.data

/-- What `LoadWallets` uses from outside wallets.go: the constant `WalletExt`,
the directory listing of `ioutil.ReadDir`, `filepath.Join`, and the wallet
operations `LoadReadableWallet`, `ToWallet` and `SetFilename`. -/
structure WalletFiles (ReadableWallet Wallet : Type) where
  WalletExt : String
  ReadDir : String → Except Error (List FileInfo)
  Join : String → String → String
  LoadReadableWallet : String → Except Error ReadableWallet
  ToWallet : ReadableWallet → Except Error Wallet
  SetFilename : Wallet → String → Wallet

/-- The loop `for _, e := range entries` of `LoadWallets`, with the wallets
collected so far. -/
def LoadWalletsLoop {ReadableWallet Wallet : Type} (fs : WalletFiles ReadableWallet Wallet)
    (dir : String) : List FileInfo → List Wallet → Except Error (List Wallet)
  | [], wallets => Except.ok wallets
  | e :: rest, wallets =>
    if e.IsRegular then
      if !HasSuffix e.Name fs.WalletExt then LoadWalletsLoop fs dir rest wallets
      else
        match fs.LoadReadableWallet (fs.Join dir e.Name) with
        | Except.error err => Except.error err
        | Except.ok readable =>
          match fs.ToWallet readable with
          | Except.error err => Except.error err
          | Except.ok w => LoadWalletsLoop fs dir rest (wallets ++ [fs.SetFilename w e.Name])
    else LoadWalletsLoop fs dir rest wallets

/-- Function `LoadWallets` of wallets.go. -/
def LoadWallets {ReadableWallet Wallet : Type} (fs : WalletFiles ReadableWallet Wallet)
    (dir : String) : Except Error (List Wallet) :=
  match fs.ReadDir dir with
  | Except.error err => Except.error err
  | Except.ok entries => LoadWalletsLoop fs dir entries []

/-- The entries that `LoadWallets` considers: regular files whose name ends in
`WalletExt`, in directory order. -/
def walletEntries {ReadableWallet Wallet : Type} (fs : WalletFiles ReadableWallet Wallet)
    (entries : List FileInfo) : List FileInfo :=
  entries.filter (fun e => e.IsRegular && HasSuffix e.Name fs.WalletExt)

/-- Loading one entry: read it, convert it, and set its filename to the entry
name. -/
def loadEntry {ReadableWallet Wallet : Type} (fs : WalletFiles ReadableWallet Wallet)
    (dir : String) (e : FileInfo) : Except Error Wallet :=
  match fs.LoadReadableWallet (fs.Join dir e.Name) with
  | Except.error err => Except.error err
  | Except.ok readable =>
    match fs.ToWallet readable with
    | Except.error err => Except.error err
    | Except.ok w => Except.ok (fs.SetFilename w e.Name)

/-! ## Announcing all transactions -/

/-- The call `dm.pool.Pool.BroadcastMessage(NewAnnounceTxnsMessage(hs))`. -/
def announceCall (hs : List SHA256) : Call :=
  Call.poolBroadcastMessage (Message.AnnounceTxns hs)

/-- The loop `for _, hs := range hashesSet` of `AnnounceAllTxns`: each chunk is
broadcast in turn, and the loop breaks at the first broadcast that fails.  The
result is the daemon and the value of `err` after the loop. -/
def Daemon.announceChunks (env : Env) : Daemon → List (List SHA256) → Daemon × Option Error
  | dm, [] => (dm, none)
  | dm, hs :: rest =>
    match dm.BroadcastMessage env (Message.AnnounceTxns hs) with
    | (dm1, some err) => (dm1, some err)
    | (dm1, none) => Daemon.announceChunks env dm1 rest

/-- Method `Daemon.AnnounceAllTxns`. -/
def Daemon.AnnounceAllTxns (env : Env) (dm : Daemon) : Daemon × Option Error :=
  if dm.Config.DisableOutgoingConnections then (dm, none)
  else
    match env.visorGetAllValidUnconfirmedTxHashes dm.calls with
    | Except.error err => (dm.record Call.visorGetAllValidUnconfirmedTxHashes, some err)
    | Except.ok hashes =>
      Daemon.announceChunks env (dm.record Call.visorGetAllValidUnconfirmedTxHashes)
        (divideHashes hashes dm.Config.MaxTxnAnnounceNum)

/-! ## A concrete environment -/

/-- An address splitter that knows a handful of addresses. -/
def exampleSplitAddr : String → Option (String × Nat)
  | "127.0.0.1:6677" => some ("127.0.0.1", 6677)
  | "10.0.0.2:7777" => some ("10.0.0.2", 7777)
  | "10.0.0.5:5000" => some ("10.0.0.5", 5000)
  | "198.51.100.7:6000" => some ("198.51.100.7", 6000)
  | "203.0.113.9:6000" => some ("203.0.113.9", 6000)
  | _ => none

/-- An environment in which every pool call succeeds, the chain head is block
12, and pex offers two public peers on distinct base IPs. -/
def exampleEnv : Env where
  splitAddr := exampleSplitAddr
  isLocalhost := fun ip => ip == "127.0.0.1"
  poolDisconnect := fun _ _ _ => none
  poolSendMessage := fun _ _ _ => none
  poolBroadcastMessage := fun _ _ => none
  poolSize := fun _ => Except.ok 2
  pexPrivate := fun _ => []
  pexTrusted := fun _ => []
  pexTrustedPublic := fun _ => []
  pexRandomPublicUntrusted := fun _ _ =>
    [⟨"198.51.100.7:6000", false, false⟩, ⟨"203.0.113.9:6000", false, false⟩]
  visorHeadBkSeq := fun _ => (12, true, none)
  messageProcess := fun _ c _ => (c, [])
  localhostIP := Except.ok "127.0.0.1"
  messagesMirror := 2711724449
  poolConfigPort := 6677
  poolIsConnExist := fun _ _ => Except.ok true
  poolOutgoingConnectionsNum := fun _ => Except.ok 1
  pexGetPeer := fun _ addr =>
    if addr == "198.51.100.7:6000" then some ⟨"198.51.100.7:6000", true, false⟩
    else if addr == "10.0.0.5:5000" then some ⟨"10.0.0.5:5000", false, false⟩
    else none
  visorCreateAndExecuteBlock := fun _ => Except.ok ⟨13, 0⟩
  visorGetAllUnconfirmedTransactions := fun _ =>
    Except.ok [⟨⟨101, 1⟩, 0, 0, 0⟩, ⟨⟨102, 2⟩, 0, 0, 0⟩, ⟨⟨103, 3⟩, 0, 0, 0⟩]
  visorGetAllValidUnconfirmedTxHashes := fun _ => Except.ok [101, 102, 103, 104, 105]

/-- A freshly started daemon with the default configuration. -/
def exampleDaemon : Daemon := ⟨NewDaemonConfig, NewConnections, []⟩

/-- A freshly started daemon that may try one connection at a time. -/
def exampleDaemonPendingOne : Daemon :=
  ⟨{ NewDaemonConfig with PendingMax := 1 }, NewConnections, []⟩

/-- A daemon whose outgoing connections are disabled. -/
def exampleDaemonOffline : Daemon :=
  ⟨{ NewDaemonConfig with DisableOutgoingConnections := true }, NewConnections, []⟩

/-- A table with one row in each state, all connected at time `0` except the
last, which connected at 20 s. -/
def exampleConnections : Connections :=
  ⟨[⟨"198.51.100.7:6000", ConnectionState.Pending, true, 0, 0, 6000, 0, 0, false⟩,
    ⟨"10.0.0.5:5000", ConnectionState.Connected, false, 0, 0, 0, 0, 0, false⟩,
    ⟨"10.0.0.2:7777", ConnectionState.Introduced, false, 0, 2998055602, 6677, 2, 0, true⟩,
    ⟨"203.0.113.9:6000", ConnectionState.Connected, true, 20000000000, 0, 6000, 0, 0, false⟩],
   [("198.51.100.7", 1), ("10.0.0.5", 1), ("10.0.0.2", 1), ("203.0.113.9", 1)]⟩

/-- A running daemon with the default configuration and the example table. -/
def exampleDaemonBusy : Daemon := ⟨NewDaemonConfig, exampleConnections, []⟩

/-- The example environment with two trusted public peers in the directory. -/
def exampleEnvTrusted : Env :=
  { exampleEnv with
    pexTrusted := fun _ =>
      [⟨"198.51.100.7:6000", true, false⟩, ⟨"203.0.113.9:6000", true, false⟩]
    pexTrustedPublic := fun _ =>
      [⟨"198.51.100.7:6000", true, false⟩, ⟨"203.0.113.9:6000", true, false⟩] }

/-- The example environment with two private peers in the directory. -/
def exampleEnvPrivate : Env :=
  { exampleEnv with
    pexPrivate := fun _ =>
      [⟨"198.51.100.7:6000", false, true⟩, ⟨"203.0.113.9:6000", false, true⟩] }

/-- A running daemon that may try one connection at a time and already has one
`Pending` row. -/
def exampleDaemonBusyPendingOne : Daemon :=
  ⟨{ NewDaemonConfig with PendingMax := 1 }, exampleConnections, []⟩

/-- The example environment in which sending a message fails. -/
def exampleEnvSendFails : Env :=
  { exampleEnv with poolSendMessage := fun _ _ _ => some "write queue full" }

/-- An address splitter for scenario S4: four ports on base IP `203.0.113.0`. -/
def exampleSplitAddrS4 : String → Option (String × Nat)
  | "203.0.113.0:40001" => some ("203.0.113.0", 40001)
  | "203.0.113.0:40002" => some ("203.0.113.0", 40002)
  | "203.0.113.0:40003" => some ("203.0.113.0", 40003)
  | "203.0.113.0:41000" => some ("203.0.113.0", 41000)
  | _ => none

/-- The example environment with the addresses of scenario S4. -/
def exampleEnvS4 : Env :=
  { exampleEnv with splitAddr := exampleSplitAddrS4 }

/-- Scenario S4: three introduced connections from base IP `203.0.113.0`. -/
def exampleDaemonS4 : Daemon :=
  ⟨NewDaemonConfig,
    ⟨[⟨"203.0.113.0:40001", ConnectionState.Introduced, false, 0, 11, 6677, 2, 0, true⟩,
      ⟨"203.0.113.0:40002", ConnectionState.Introduced, false, 0, 12, 6677, 2, 0, true⟩,
      ⟨"203.0.113.0:40003", ConnectionState.Introduced, false, 0, 13, 6677, 2, 0, true⟩],
     [("203.0.113.0", 3)]⟩,
    []⟩

/-- A localhost-only daemon with the default configuration otherwise. -/
def exampleDaemonLocalhostOnly : Daemon :=
  ⟨{ NewDaemonConfig with LocalhostOnly := true }, NewConnections, []⟩

/-- The default configuration of the daemon, pool and pex. -/
def exampleConfig : Config :=
  ⟨NewDaemonConfig, ⟨"", 0, 128, 4096⟩, ⟨false, false, 60000000000⟩⟩

/-- A configuration with networking disabled. -/
def exampleConfigOffline : Config :=
  { exampleConfig with Daemon := { NewDaemonConfig with DisableNetworking := true } }

/-- A configuration with networking disabled that asks for localhost-only on
a public address. -/
def exampleConfigBadLocalhost : Config :=
  { exampleConfig with
    Daemon := { NewDaemonConfig with
      DisableNetworking := true
      LocalhostOnly := true
      Address := "8.8.8.8" } }

/-- A wallet directory: two wallet files, a backup, and a sub-directory whose
name ends in the wallet extension.  A wallet is its seed number and filename. -/
def exampleWalletFiles : WalletFiles Nat (Nat × String) where
  WalletExt := "wlt"
  ReadDir := fun dir =>
    if dir == "wallets" then
      Except.ok [⟨"a.wlt", true⟩, ⟨"a.wlt.bak", true⟩, ⟨"old.wlt", false⟩, ⟨"b.wlt", true⟩]
    else Except.error "no such directory"
  Join := fun dir name => dir ++ "/" ++ name
  LoadReadableWallet := fun path =>
    if path == "wallets/a.wlt" then Except.ok 1
    else if path == "wallets/b.wlt" then Except.ok 2
    else Except.error "cannot read wallet"
  ToWallet := fun seed => Except.ok (seed, "")
  SetFilename := fun w name => (w.1, name)

/-- The example table after its `Pending` row connected at time `7`. -/
def exampleConnectionsAdvanced : Connections :=
  ⟨[⟨"198.51.100.7:6000", ConnectionState.Connected, true, 7, 0, 6000, 0, 0, false⟩,
    ⟨"10.0.0.5:5000", ConnectionState.Connected, false, 0, 0, 0, 0, 0, false⟩,
    ⟨"10.0.0.2:7777", ConnectionState.Introduced, false, 0, 2998055602, 6677, 2, 0, true⟩,
    ⟨"203.0.113.9:6000", ConnectionState.Connected, true, 20000000000, 0, 6000, 0, 0, false⟩],
   [("198.51.100.7", 1), ("10.0.0.5", 1), ("10.0.0.2", 1), ("203.0.113.9", 1)]⟩

/-- The unconfirmed pool of the example environment: three transactions. -/
def exampleUnconfirmed : List UnconfirmedTxn :=
  [⟨⟨101, 1⟩, 0, 0, 0⟩, ⟨⟨102, 2⟩, 0, 0, 0⟩, ⟨⟨103, 3⟩, 0, 0, 0⟩]

/-- The example environment in which every broadcast fails. -/
def exampleEnvBroadcastFails : Env :=
  { exampleEnv with poolBroadcastMessage := fun _ _ => some "Connection pool is empty" }

/-- The example environment in which the broadcast of transaction 102 fails. -/
def exampleEnvOneBroadcastFails : Env :=
  { exampleEnv with
    poolBroadcastMessage := fun _ m =>
      if m = Message.GiveTxns [⟨102, 2⟩] then some "Connection pool is empty" else none }

/-- A freshly started daemon that announces two hashes per message. -/
def exampleDaemonTwoPerMessage : Daemon :=
  ⟨{ NewDaemonConfig with MaxTxnAnnounceNum := 2 }, NewConnections, []⟩

/-- The example environment in which the announcement of `[103, 104]` fails. -/
def exampleEnvAnnounceFails : Env :=
  { exampleEnv with
    poolBroadcastMessage := fun _ m =>
      if m = Message.AnnounceTxns [103, 104] then some "Connection pool is empty" else none }

/-- The example environment with an empty unconfirmed pool. -/
def exampleEnvNoHashes : Env :=
  { exampleEnv with visorGetAllValidUnconfirmedTxHashes := fun _ => Except.ok [] }

/-! ## Lemmas on divideHashes -/

theorem slice_length_of_le {α : Type} (l : List α) (lo hi : Nat) (h : hi ≤ l.length) :
    (slice l lo hi).length = hi - lo := by
  unfold slice
  rw [List.length_take, List.length_drop]
  omega

theorem take_append_slice {α : Type} (l : List α) (lo hi : Nat) (h : lo ≤ hi) :
    l.take lo ++ slice l lo hi = l.take hi := by
  unfold slice
  have e : hi = lo + (hi - lo) := by omega
  conv_rhs => rw [e, List.take_add]

theorem slice_to_end {α : Type} (l : List α) (lo : Nat) :
    slice l lo l.length = l.drop lo := by
  unfold slice
  apply List.take_of_length_le
  rw [List.length_drop]

/-- Loop invariant valid for every chunk size: after the first `m` iterations
`j ≤ m`, the chunks collected so far concatenate to `hashes[0:j]`, and each of
them has length `n`. -/
theorem divideHashes_fold_inv {α : Type} (hashes : List α) (n : Int) (m : Nat)
    (hm : m ≤ hashes.length) :
    let st := (List.range m).foldl (divideHashesStep hashes n) (0, [])
    st.1 ≤ m ∧ st.2.flatten = hashes.take st.1 ∧ ∀ c ∈ st.2, (c.length : Int) = n := by
  induction m with
  | zero => simp
  | succ m ih =>
    have ih1 := ih (by omega)
    simp only [List.range_succ, List.foldl_append, List.foldl_cons, List.foldl_nil] at ih1 ⊢
    generalize (List.range m).foldl (divideHashesStep hashes n) (0, []) = st at ih1 ⊢
    obtain ⟨h1, h2, h3⟩ := ih1
    unfold divideHashesStep
    split
    · rename_i hc
      refine ⟨by simp, ?_, ?_⟩
      · simp only [List.flatten_append, List.flatten_cons, List.flatten_nil, List.append_nil]
        rw [h2]
        exact take_append_slice hashes st.1 m h1
      · intro c hcm
        rw [List.mem_append] at hcm
        rcases hcm with hcm | hcm
        · exact h3 c hcm
        · simp only [List.mem_singleton] at hcm
          rw [hcm]; exact hc
    · exact ⟨by omega, h2, h3⟩

theorem divideHashesLoop_inv {α : Type} (hashes : List α) (n : Int) :
    (divideHashesLoop hashes n).1 ≤ hashes.length ∧
    (divideHashesLoop hashes n).2.flatten = hashes.take (divideHashesLoop hashes n).1 ∧
    ∀ c ∈ (divideHashesLoop hashes n).2, (c.length : Int) = n := by
  unfold divideHashesLoop
  split
  · exact divideHashes_fold_inv hashes n hashes.length (le_refl _)
  · simp

/-- Closed form of the loop state for a chunk size `n ≥ 1`: after `m`
iterations `j = n * ((m - 1) / n)` and the chunks are the full slices below `j`. -/
theorem divideHashes_fold_closed {α : Type} (hashes : List α) (n : Nat) (hn : 1 ≤ n)
    (m : Nat) (hm : m ≤ hashes.length) :
    (List.range m).foldl (divideHashesStep hashes (n : Int)) (0, []) =
      (n * ((m - 1) / n),
        (List.range ((m - 1) / n)).map (fun k => slice hashes (k * n) ((k + 1) * n))) := by
  induction m with
  | zero => simp
  | succ m ih =>
    rw [List.range_succ, List.foldl_append, ih (by omega)]
    simp only [List.foldl_cons, List.foldl_nil, divideHashesStep]
    have hlen : (slice hashes (n * ((m - 1) / n)) m).length = m - n * ((m - 1) / n) :=
      slice_length_of_le _ _ _ (by omega)
    rw [hlen]
    have key : m + 1 - 1 = m := rfl
    rw [key]
    have hlo : n * ((m - 1) / n) ≤ m - 1 := Nat.mul_div_le (m - 1) n
    have hhi : m - 1 < n * ((m - 1) / n) + n := by
      have := Nat.lt_mul_div_succ (m - 1) (show 0 < n by omega)
      rw [Nat.mul_add, Nat.mul_one] at this
      exact this
    by_cases hc : m - n * ((m - 1) / n) = n
    · rw [if_pos (by exact_mod_cast hc)]
      have hmq : m = n * ((m - 1) / n + 1) := by rw [Nat.mul_add, Nat.mul_one]; omega
      have hq : m / n = (m - 1) / n + 1 := by
        conv_lhs => rw [hmq]
        exact Nat.mul_div_cancel_left _ (by omega)
      rw [hq, List.range_succ, List.map_append]
      simp only [List.map_cons, List.map_nil]
      rw [← hmq, Nat.mul_comm ((m - 1) / n) n, Nat.add_mul, Nat.one_mul,
        Nat.mul_comm ((m - 1) / n) n]
      have hm2 : n * ((m - 1) / n) + n = m := by omega
      rw [hm2]
    · rw [if_neg (by exact_mod_cast hc)]
      have hq : m / n = (m - 1) / n := by
        apply Nat.div_eq_of_lt_le
        · rw [Nat.mul_comm]; omega
        · rw [Nat.succ_mul, Nat.mul_comm]; omega
      rw [hq]

/-- For a chunk size `n ≥ 1` and a non-empty list, `divideHashes` returns the
full slices `hashes[k*n:(k+1)*n]` for `k < (L-1)/n`, then the rest. -/
theorem divideHashes_closed {α : Type} (hashes : List α) (n : Nat) (hn : 1 ≤ n)
    (hne : hashes ≠ []) :
    divideHashes hashes (n : Int) =
      (List.range ((hashes.length - 1) / n)).map
          (fun k => slice hashes (k * n) ((k + 1) * n)) ++
        [slice hashes (n * ((hashes.length - 1) / n)) hashes.length] := by
  have hpos : 0 < hashes.length := List.length_pos.mpr hne
  unfold divideHashes divideHashesLoop
  rw [if_neg (by omega)]
  by_cases hc : (n : Int) < (hashes.length : Int)
  · rw [if_pos hc, divideHashes_fold_closed hashes n hn hashes.length (le_refl _)]
  · rw [if_neg hc]
    have hle : hashes.length ≤ n := by exact_mod_cast not_lt.mp hc
    have hq : (hashes.length - 1) / n = 0 := Nat.div_eq_of_lt (by omega)
    rw [hq]
    simp

/-- Closed form with every chunk written as `hashes[k*n : min((k+1)*n, L)]`. -/
theorem divideHashes_closed_min {α : Type} (hashes : List α) (n : Nat) (hn : 1 ≤ n)
    (hne : hashes ≠ []) :
    divideHashes hashes (n : Int) =
      (List.range ((hashes.length - 1) / n + 1)).map
        (fun k => slice hashes (k * n) (min ((k + 1) * n) hashes.length)) := by
  have hpos : 0 < hashes.length := List.length_pos.mpr hne
  have hlo : n * ((hashes.length - 1) / n) ≤ hashes.length - 1 := Nat.mul_div_le _ n
  have hhi : hashes.length - 1 < n * ((hashes.length - 1) / n) + n := by
    have := Nat.lt_mul_div_succ (hashes.length - 1) (show 0 < n by omega)
    rw [Nat.mul_add, Nat.mul_one] at this
    exact this
  rw [divideHashes_closed hashes n hn hne, List.range_succ, List.map_append]
  congr 1
  · apply List.map_congr_left
    intro k hk
    rw [List.mem_range] at hk
    have h1 : (k + 1) * n ≤ (hashes.length - 1) / n * n := Nat.mul_le_mul_right n hk
    rw [Nat.mul_comm ((hashes.length - 1) / n) n] at h1
    rw [Nat.min_eq_left (by omega)]
  · simp only [List.map_cons, List.map_nil]
    rw [Nat.add_mul, Nat.one_mul, Nat.mul_comm ((hashes.length - 1) / n) n,
      Nat.min_eq_right (by omega)]

/-! ## Claims on divideHashes -/

/-- C1: for every hash list and every chunk size `n` (any Go `int`),
concatenating the chunks of `divideHashes(list, n)` in order gives back exactly
the input list. -/
theorem divideHashes_flatten {α : Type} (hashes : List α) (n : Int) :
    (divideHashes hashes n).flatten = hashes := by
  unfold divideHashes
  split
  · rename_i h
    simp [List.length_eq_zero.mp h]
  · obtain ⟨_, h2, _⟩ := divideHashesLoop_inv hashes n
    rw [List.flatten_append, h2, slice_to_end]
    simp

/-- C2 fails as stated: with chunk size `0` the list `[7]` is split into
`[[], [7]]`, whose last chunk has length `1 > 0`. -/
theorem divideHashes_last_chunk_counterexample :
    divideHashes [7] 0 = [[], [7]] ∧
    ¬ (∀ (hashes : List Nat) (n : Int), hashes ≠ [] →
        ∃ c, (divideHashes hashes n).getLast? = some c ∧
          1 ≤ c.length ∧ (c.length : Int) ≤ n) := by
  refine ⟨by decide, ?_⟩
  intro h
  obtain ⟨c, hc, _, hle⟩ := h [7] 0 (by decide)
  have e : divideHashes [7] 0 = [[], [7]] := by decide
  rw [e] at hc
  simp at hc
  subst hc
  simp at hle

/-- C2 (amended): for every non-empty hash list and every chunk size `n ≥ 1`,
the last chunk of `divideHashes(list, n)` has length at least 1 and at most `n`. -/
theorem divideHashes_last_chunk {α : Type} (hashes : List α) (n : Int)
    (hne : hashes ≠ []) (hn : 1 ≤ n) :
    ∃ c, (divideHashes hashes n).getLast? = some c ∧
      1 ≤ c.length ∧ (c.length : Int) ≤ n := by
  lift n to ℕ using (by omega)
  have hn1 : 1 ≤ n := by exact_mod_cast hn
  have hpos : 0 < hashes.length := List.length_pos.mpr hne
  have hlo : n * ((hashes.length - 1) / n) ≤ hashes.length - 1 := Nat.mul_div_le _ n
  have hhi : hashes.length - 1 < n * ((hashes.length - 1) / n) + n := by
    have := Nat.lt_mul_div_succ (hashes.length - 1) (show 0 < n by omega)
    rw [Nat.mul_add, Nat.mul_one] at this
    exact this
  refine ⟨slice hashes (n * ((hashes.length - 1) / n)) hashes.length, ?_, ?_, ?_⟩
  · rw [divideHashes_closed hashes n hn1 hne]
    simp
  · rw [slice_length_of_le _ _ _ (le_refl _)]; omega
  · rw [slice_length_of_le _ _ _ (le_refl _)]
    have : hashes.length - n * ((hashes.length - 1) / n) ≤ n := by omega
    exact_mod_cast this

theorem divideHashes_last_chunk_witness :
    ([3, 1, 4, 1, 5] : List Nat) ≠ [] ∧ (1 : Int) ≤ 2 ∧
    ∃ c, (divideHashes ([3, 1, 4, 1, 5] : List Nat) 2).getLast? = some c ∧
      1 ≤ c.length ∧ (c.length : Int) ≤ 2 :=
  ⟨by decide, by decide, divideHashes_last_chunk [3, 1, 4, 1, 5] 2 (by decide) (by decide)⟩

/-- C3: for every hash list and every chunk size `n` (any Go `int`), every
chunk of `divideHashes(list, n)` other than the last has length exactly `n`. -/
theorem divideHashes_full_chunks {α : Type} (hashes : List α) (n : Int) :
    ∀ c ∈ (divideHashes hashes n).dropLast, (c.length : Int) = n := by
  unfold divideHashes
  split
  · simp
  · obtain ⟨_, _, h3⟩ := divideHashesLoop_inv hashes n
    rw [List.dropLast_concat]
    exact h3

theorem divideHashes_full_chunks_witness :
    ([11, 12] : List Nat) ∈ (divideHashes ([11, 12, 13, 14, 15] : List Nat) 2).dropLast ∧
    ((([11, 12] : List Nat).length : Int) = 2) ∧
    ([] : List Nat) ∈ (divideHashes ([11, 12, 13] : List Nat) 0).dropLast ∧
    ((([] : List Nat).length : Int) = 0) :=
  ⟨by decide,
    divideHashes_full_chunks ([11, 12, 13, 14, 15] : List Nat) 2 [11, 12] (by decide),
    by decide,
    divideHashes_full_chunks ([11, 12, 13] : List Nat) 0 [] (by decide)⟩

/-- C4: for every non-empty hash list of length `L` and every chunk size
`n ≥ 1`, `divideHashes(list, n)` has exactly `ceil(L / n)` chunks and its
`k`-th chunk is the contiguous slice `list[k*n : min((k+1)*n, L)]`. -/
theorem divideHashes_chunks {α : Type} (hashes : List α) (n : Int)
    (hne : hashes ≠ []) (hn : 1 ≤ n) :
    (divideHashes hashes n).length = (hashes.length + n.toNat - 1) / n.toNat ∧
    ∀ k, k < (divideHashes hashes n).length →
      (divideHashes hashes n)[k]? =
        some (slice hashes (k * n.toNat) (min ((k + 1) * n.toNat) hashes.length)) := by
  lift n to ℕ using (by omega)
  have hn1 : 1 ≤ n := by exact_mod_cast hn
  have hpos : 0 < hashes.length := List.length_pos.mpr hne
  rw [divideHashes_closed_min hashes n hn1 hne, Int.toNat_natCast]
  constructor
  · rw [List.length_map, List.length_range]
    have e : hashes.length + n - 1 = (hashes.length - 1) + n := by omega
    rw [e, Nat.add_div_right _ (by omega)]
  · intro k hk
    rw [List.length_map, List.length_range] at hk
    rw [List.getElem?_map, List.getElem?_range hk]
    rfl

theorem divideHashes_chunks_witness :
    divideHashes ([11, 12, 13, 14, 15] : List Nat) 2 = [[11, 12], [13, 14], [15]] ∧
    divideHashes ([11] : List Nat) 2 = [[11]] ∧
    (divideHashes ([11, 12, 13, 14, 15] : List Nat) 2).length = (5 + 2 - 1) / 2 ∧
    ∀ k, k < (divideHashes ([11, 12, 13, 14, 15] : List Nat) 2).length →
      (divideHashes ([11, 12, 13, 14, 15] : List Nat) 2)[k]? =
        some (slice [11, 12, 13, 14, 15] (k * 2) (min ((k + 1) * 2) 5)) :=
  ⟨by decide, by decide,
    divideHashes_chunks ([11, 12, 13, 14, 15] : List Nat) 2 (by decide) (by decide)⟩

/-- C5: for every chunk size `n` (positive, zero or negative), `divideHashes`
applied to the empty hash list returns the empty list of chunks. -/
theorem divideHashes_nil {α : Type} (n : Int) :
    divideHashes ([] : List α) n = [] := by
  unfold divideHashes
  simp

/-! ## Claims on the broadcast API -/

/-- C6: in every daemon state in which `DisableOutgoingConnections` is set,
each of `AnnounceBlocks`, `RequestBlocks`, `AnnounceTxns` and
`BroadcastTransaction` leaves the daemon state unchanged and logs no call to
the pool or to the chain engine. -/
theorem broadcast_noop_when_outgoing_disabled (env : Env) (dm : Daemon)
    (txns : List SHA256) (t : Transaction)
    (h : dm.Config.DisableOutgoingConnections = true) :
    ((dm.AnnounceBlocks env).1 = dm ∧ (dm.AnnounceBlocks env).1.calls = dm.calls) ∧
    ((dm.RequestBlocks env).1 = dm ∧ (dm.RequestBlocks env).1.calls = dm.calls) ∧
    ((dm.AnnounceTxns env txns).1 = dm ∧ (dm.AnnounceTxns env txns).1.calls = dm.calls) ∧
    ((dm.BroadcastTransaction env t).1 = dm ∧
      (dm.BroadcastTransaction env t).1.calls = dm.calls) := by
  refine ⟨?_, ?_, ?_, ?_⟩
  · have e : (dm.AnnounceBlocks env).1 = dm := by
      unfold Daemon.AnnounceBlocks
      rw [if_pos h]
    exact ⟨e, by rw [e]⟩
  · have e : (dm.RequestBlocks env).1 = dm := by
      unfold Daemon.RequestBlocks
      rw [if_pos h]
    exact ⟨e, by rw [e]⟩
  · have e : (dm.AnnounceTxns env txns).1 = dm := by
      unfold Daemon.AnnounceTxns
      rw [if_pos h]
    exact ⟨e, by rw [e]⟩
  · have e : (dm.BroadcastTransaction env t).1 = dm := by
      unfold Daemon.BroadcastTransaction
      rw [if_pos h]
    exact ⟨e, by rw [e]⟩

theorem broadcast_noop_when_outgoing_disabled_witness :
    exampleDaemonOffline.Config.DisableOutgoingConnections = true ∧
    ((exampleDaemonOffline.AnnounceBlocks exampleEnv).1 = exampleDaemonOffline ∧
      (exampleDaemonOffline.AnnounceBlocks exampleEnv).1.calls = exampleDaemonOffline.calls) ∧
    ((exampleDaemonOffline.RequestBlocks exampleEnv).1 = exampleDaemonOffline ∧
      (exampleDaemonOffline.RequestBlocks exampleEnv).1.calls = exampleDaemonOffline.calls) ∧
    ((exampleDaemonOffline.AnnounceTxns exampleEnv [5, 6]).1 = exampleDaemonOffline ∧
      (exampleDaemonOffline.AnnounceTxns exampleEnv [5, 6]).1.calls =
        exampleDaemonOffline.calls) ∧
    ((exampleDaemonOffline.BroadcastTransaction exampleEnv ⟨5, 0⟩).1 = exampleDaemonOffline ∧
      (exampleDaemonOffline.BroadcastTransaction exampleEnv ⟨5, 0⟩).1.calls =
        exampleDaemonOffline.calls) :=
  ⟨by decide,
    broadcast_noop_when_outgoing_disabled exampleEnv exampleDaemonOffline [5, 6] ⟨5, 0⟩
      (by decide)⟩

/-! ## Lemmas on the outgoing solicitor -/

/-- Every path of `connectToPeer` that returns an error returns the daemon it
was given. -/
theorem connectToPeer_error_unchanged (env : Env) (dm : Daemon) (p : Peer)
    (h : (dm.connectToPeer env p).2 ≠ none) : (dm.connectToPeer env p).1 = dm := by
  unfold Daemon.connectToPeer at h ⊢
  by_cases h1 : dm.Config.DisableOutgoingConnections = true
  · rw [if_pos h1]
  · rw [if_neg h1] at h ⊢
    cases h2 : env.splitAddr p.Addr with
    | none => rfl
    | some ap =>
      obtain ⟨a, port⟩ := ap
      rw [h2] at h
      simp only [] at h ⊢
      by_cases h3 : (dm.Config.LocalhostOnly && !env.isLocalhost a) = true
      · rw [if_pos h3]
      · rw [if_neg h3] at h ⊢
        cases h4 : dm.connections.get p.Addr with
        | some c => rfl
        | none =>
          rw [h4] at h
          simp only [] at h ⊢
          by_cases h5 : (!dm.Config.LocalhostOnly && dm.connections.IPCount a != 0) = true
          · rw [if_pos h5]
          · rw [if_neg h5] at h ⊢
            cases h6 : dm.connections.pending env.splitAddr p.Addr with
            | error err => rfl
            | ok r =>
              rw [h6] at h
              exact absurd rfl h

/-- A successful `pending` adds exactly one `Pending` row. -/
theorem pending_PendingLen (c : Connections) (splitAddr : String → Option (String × Nat))
    (addr : String) (r : connection × Connections)
    (h : c.pending splitAddr addr = Except.ok r) : r.2.PendingLen = c.PendingLen + 1 := by
  unfold Connections.pending at h
  split at h
  · cases h
  · split at h
    · cases h
    · cases h
      simp [Connections.PendingLen, List.filter_append]

/-- A dial adds at most one `Pending` row. -/
theorem connectToPeer_PendingLen_le (env : Env) (dm : Daemon) (p : Peer) :
    (dm.connectToPeer env p).1.connections.PendingLen ≤ dm.connections.PendingLen + 1 := by
  by_cases herr : (dm.connectToPeer env p).2 ≠ none
  · rw [connectToPeer_error_unchanged env dm p herr]
    omega
  · unfold Daemon.connectToPeer at herr ⊢
    by_cases h1 : dm.Config.DisableOutgoingConnections = true
    · rw [if_pos h1]; simp
    · rw [if_neg h1] at herr ⊢
      cases h2 : env.splitAddr p.Addr with
      | none => simp
      | some ap =>
        obtain ⟨a, port⟩ := ap
        rw [h2] at herr
        simp only [] at herr ⊢
        by_cases h3 : (dm.Config.LocalhostOnly && !env.isLocalhost a) = true
        · rw [if_pos h3]; simp
        · rw [if_neg h3] at herr ⊢
          cases h4 : dm.connections.get p.Addr with
          | some c => simp
          | none =>
            rw [h4] at herr
            simp only [] at herr ⊢
            by_cases h5 : (!dm.Config.LocalhostOnly && dm.connections.IPCount a != 0) = true
            · rw [if_pos h5]; simp
            · rw [if_neg h5] at herr ⊢
              cases h6 : dm.connections.pending env.splitAddr p.Addr with
              | error err => simp
              | ok r =>
                have := pending_PendingLen dm.connections env.splitAddr p.Addr r h6
                simp only [Daemon.record]
                omega

/-- A batch of dials adds at most one `Pending` row per peer. -/
theorem connectToPeers_PendingLen_le (env : Env) (peers : List Peer) (dm : Daemon) :
    (dm.connectToPeers env peers).connections.PendingLen ≤
      dm.connections.PendingLen + peers.length := by
  unfold Daemon.connectToPeers
  induction peers generalizing dm with
  | nil => simp
  | cons p rest ih =>
    rw [List.foldl_cons, List.length_cons]
    have h1 := ih (dm.connectToPeer env p).1
    have h2 := connectToPeer_PendingLen_le env dm p
    omega

/-- A dial does not read `PendingMax`: changing it changes neither the
outcome of the dial nor what it does to the table and the call log. -/
theorem connectToPeer_setPendingMax (env : Env) (dm : Daemon) (p : Peer) (x : Int) :
    (dm.setPendingMax x).connectToPeer env p =
      ((dm.connectToPeer env p).1.setPendingMax x, (dm.connectToPeer env p).2) := by
  have hd : (dm.setPendingMax x).Config.DisableOutgoingConnections =
      dm.Config.DisableOutgoingConnections := rfl
  have hl : (dm.setPendingMax x).Config.LocalhostOnly = dm.Config.LocalhostOnly := rfl
  have hc : (dm.setPendingMax x).connections = dm.connections := rfl
  unfold Daemon.connectToPeer
  rw [hd, hl, hc]
  by_cases h1 : dm.Config.DisableOutgoingConnections = true
  · simp only [if_pos h1]
  · simp only [if_neg h1]
    cases h2 : env.splitAddr p.Addr with
    | none => rfl
    | some ap =>
      obtain ⟨a, port⟩ := ap
      simp only []
      by_cases h3 : (dm.Config.LocalhostOnly && !env.isLocalhost a) = true
      · simp only [if_pos h3]
      · simp only [if_neg h3]
        cases h4 : dm.connections.get p.Addr with
        | some c => rfl
        | none =>
          simp only []
          by_cases h5 : (!dm.Config.LocalhostOnly && dm.connections.IPCount a != 0) = true
          · simp only [if_pos h5]
          · simp only [if_neg h5]
            cases h6 : dm.connections.pending env.splitAddr p.Addr with
            | error err => rfl
            | ok r => rfl

/-- A batch of dials does not read `PendingMax`. -/
theorem connectToPeers_setPendingMax (env : Env) (peers : List Peer) (dm : Daemon) (x : Int) :
    (dm.setPendingMax x).connectToPeers env peers =
      (dm.connectToPeers env peers).setPendingMax x := by
  unfold Daemon.connectToPeers
  induction peers generalizing dm with
  | nil => rfl
  | cons p rest ih =>
    rw [List.foldl_cons, List.foldl_cons, connectToPeer_setPendingMax]
    exact ih (dm.connectToPeer env p).1

/-- The start-up trusted dial does not read `PendingMax`. -/
theorem runTrustedDial_setPendingMax (env : Env) (dm : Daemon) (x : Int) :
    (dm.setPendingMax x).runTrustedDial env = (dm.runTrustedDial env).setPendingMax x := by
  have hd : (dm.setPendingMax x).Config.DisableOutgoingConnections =
      dm.Config.DisableOutgoingConnections := rfl
  have hcalls : (dm.setPendingMax x).calls = dm.calls := rfl
  have hrec : ∀ c, (dm.setPendingMax x).record c = (dm.record c).setPendingMax x :=
    fun _ => rfl
  unfold Daemon.runTrustedDial Daemon.connectToTrustPeer
  rw [hd, hcalls, hrec]
  cases h1 : dm.Config.DisableOutgoingConnections with
  | true => rfl
  | false =>
    simp only [Bool.not_false, if_true, Bool.false_eq_true, if_false]
    exact connectToPeers_setPendingMax env _ (dm.record Call.pexTrustedPublic) x

/-- The private tick does not read `PendingMax`. -/
theorem runPrivateConnectionsTick_setPendingMax (env : Env) (dm : Daemon) (x : Int) :
    (dm.setPendingMax x).runPrivateConnectionsTick env =
      (dm.runPrivateConnectionsTick env).setPendingMax x := by
  have hd : (dm.setPendingMax x).Config.DisableOutgoingConnections =
      dm.Config.DisableOutgoingConnections := rfl
  have hcalls : (dm.setPendingMax x).calls = dm.calls := rfl
  have hrec : ∀ c, (dm.setPendingMax x).record c = (dm.record c).setPendingMax x :=
    fun _ => rfl
  unfold Daemon.runPrivateConnectionsTick Daemon.makePrivateConnections
  rw [hd, hcalls, hrec]
  cases h1 : dm.Config.DisableOutgoingConnections with
  | true => rfl
  | false =>
    simp only [Bool.not_false, if_true, Bool.false_eq_true, if_false]
    exact connectToPeers_setPendingMax env _ (dm.record Call.pexPrivate) x

/-! ## Claims on the outgoing solicitor -/

/-- C7: for every peer and every daemon state, if a dial pre-condition fails
(outgoing connections disabled; the address does not split into ip and port; a
row already exists for the address; localhost-only and the base IP is not
localhost; or not localhost-only and `IPCount(ip) ≠ 0`), `connectToPeer`
returns a non-nil error and the daemon it was given: the connection table and
`PendingLen` are unchanged and no call to the pool is logged. -/
theorem connectToPeer_precondition_failure (env : Env) (dm : Daemon) (p : Peer)
    (h : dm.Config.DisableOutgoingConnections = true ∨
      env.splitAddr p.Addr = none ∨
      (dm.connections.get p.Addr).isSome = true ∨
      ∃ ip port, env.splitAddr p.Addr = some (ip, port) ∧
        ((dm.Config.LocalhostOnly = true ∧ env.isLocalhost ip = false) ∨
          (dm.Config.LocalhostOnly = false ∧ dm.connections.IPCount ip ≠ 0))) :
    (dm.connectToPeer env p).2 ≠ none ∧
    (dm.connectToPeer env p).1 = dm ∧
    (dm.connectToPeer env p).1.connections = dm.connections ∧
    (dm.connectToPeer env p).1.connections.PendingLen = dm.connections.PendingLen ∧
    (dm.connectToPeer env p).1.calls = dm.calls := by
  have herr : (dm.connectToPeer env p).2 ≠ none := by
    unfold Daemon.connectToPeer
    rcases h with h | h | h | ⟨ip, port, hs, h⟩
    · rw [if_pos h]; simp
    · split
      · simp
      · rw [h]; simp
    · split
      · simp
      · split
        · simp
        · split
          · simp
          · split
            · simp
            · rename_i hn
              rw [hn] at h
              simp at h
    · split
      · simp
      · rw [hs]
        simp only []
        rcases h with ⟨h1, h2⟩ | ⟨h1, h2⟩
        · rw [h1, h2]; simp
        · split
          · simp
          · split
            · simp
            · rw [h1]
              simp [h2]
  have hsame := connectToPeer_error_unchanged env dm p herr
  exact ⟨herr, hsame, by rw [hsame], by rw [hsame], by rw [hsame]⟩

theorem connectToPeer_precondition_failure_witness :
    (exampleDaemonBusy.connections.get "10.0.0.5:5000").isSome = true ∧
    (exampleDaemonBusy.connectToPeer exampleEnv ⟨"10.0.0.5:5000", false, false⟩).2 ≠ none ∧
    (exampleDaemonBusy.connectToPeer exampleEnv ⟨"10.0.0.5:5000", false, false⟩).1 =
      exampleDaemonBusy ∧
    (exampleDaemonBusy.connectToPeer exampleEnv ⟨"10.0.0.5:5000", false, false⟩).1.connections =
      exampleDaemonBusy.connections ∧
    (exampleDaemonBusy.connectToPeer exampleEnv
        ⟨"10.0.0.5:5000", false, false⟩).1.connections.PendingLen =
      exampleDaemonBusy.connections.PendingLen ∧
    (exampleDaemonBusy.connectToPeer exampleEnv ⟨"10.0.0.5:5000", false, false⟩).1.calls =
      exampleDaemonBusy.calls :=
  ⟨by decide,
    connectToPeer_precondition_failure exampleEnv exampleDaemonBusy
      ⟨"10.0.0.5:5000", false, false⟩ (Or.inr (Or.inr (Or.inl (by decide))))⟩

/-- C8 fails as stated: from the freshly started daemon with `PendingMax = 1`,
the start-up trusted dial of two trusted peers leaves two `Pending` rows, and
so do a private tick with two private peers and an outgoing tick in which pex
offers two peers on distinct base IPs. -/
theorem pending_rows_exceed_PendingMax_counterexample :
    exampleDaemonPendingOne.connections = NewConnections ∧
    exampleDaemonPendingOne.Config.PendingMax = 1 ∧
    (exampleDaemonPendingOne.runDialPolicies exampleEnvTrusted
        [DialPolicy.trusted]).connections.PendingLen = 2 ∧
    (exampleDaemonPendingOne.runDialPolicies exampleEnvPrivate
        [DialPolicy.privateTick]).connections.PendingLen = 2 ∧
    (exampleDaemonPendingOne.runDialPolicies exampleEnv
        [DialPolicy.outgoingTick]).connections.PendingLen = 2 ∧
    ¬ (∀ (env : Env) (dm : Daemon) (steps : List DialPolicy),
        dm.connections = NewConnections →
        ((dm.runDialPolicies env steps).connections.PendingLen : Int) ≤
          dm.Config.PendingMax) := by
  refine ⟨by decide, by decide, by decide, by decide, by decide, ?_⟩
  intro h
  have h1 := h exampleEnvTrusted exampleDaemonPendingOne [DialPolicy.trusted] (by decide)
  revert h1
  decide

/-- C8 (amended): `PendingMax` is a gate on the outgoing tick, not a bound on
the table.  An outgoing tick that fires while `PendingLen ≥ PendingMax` inserts
no `Pending` row and requests no dial: the connection table is unchanged and the
only call logged is the question to pex for its trusted peers; hence any
number of outgoing ticks fired from such a state leave the table unchanged.
The start-up trusted dial and the private tick do not consult `PendingMax`:
whatever its value, they leave the same connection table and make the same
calls. -/
theorem pendingMax_gates_outgoing_tick_only (env : Env) (dm : Daemon) :
    (dm.Config.PendingMax ≤ (dm.connections.PendingLen : Int) →
      (dm.runOutgoingConnectionsTick env).connections = dm.connections ∧
      (dm.runOutgoingConnectionsTick env).connections.PendingLen =
        dm.connections.PendingLen ∧
      (dm.runOutgoingConnectionsTick env).calls = dm.calls ++ [Call.pexTrusted] ∧
      ∀ k, (dm.runDialPolicies env (List.replicate k DialPolicy.outgoingTick)).connections =
        dm.connections) ∧
    (∀ x : Int,
      ((dm.setPendingMax x).runTrustedDial env).connections =
        (dm.runTrustedDial env).connections ∧
      ((dm.setPendingMax x).runTrustedDial env).calls = (dm.runTrustedDial env).calls) ∧
    (∀ x : Int,
      ((dm.setPendingMax x).runPrivateConnectionsTick env).connections =
        (dm.runPrivateConnectionsTick env).connections ∧
      ((dm.setPendingMax x).runPrivateConnectionsTick env).calls =
        (dm.runPrivateConnectionsTick env).calls) := by
  have hstep : ∀ d : Daemon, d.Config.PendingMax ≤ (d.connections.PendingLen : Int) →
      d.runOutgoingConnectionsTick env = d.record Call.pexTrusted := by
    intro d hd
    have hg : ¬ ((d.connections.PendingLen : Int) < d.Config.PendingMax) := by omega
    unfold Daemon.runOutgoingConnectionsTick
    simp [Daemon.record, hg]
  refine ⟨?_, ?_, ?_⟩
  · intro h
    refine ⟨?_, ?_, ?_, ?_⟩
    · rw [hstep dm h]; rfl
    · rw [hstep dm h]; rfl
    · rw [hstep dm h]; rfl
    · intro k
      have hrun : ∀ (k : Nat) (d : Daemon),
          d.Config.PendingMax ≤ (d.connections.PendingLen : Int) →
          (d.runDialPolicies env (List.replicate k DialPolicy.outgoingTick)).connections =
            d.connections := by
        intro k
        induction k with
        | zero => intro d _; rfl
        | succ k ih =>
          intro d hd
          unfold Daemon.runDialPolicies at ih ⊢
          rw [List.replicate_succ, List.foldl_cons]
          have e : d.runDialPolicy env DialPolicy.outgoingTick = d.record Call.pexTrusted :=
            hstep d hd
          rw [e]
          exact ih (d.record Call.pexTrusted) hd
      exact hrun k dm h
  · intro x
    rw [runTrustedDial_setPendingMax]
    exact ⟨rfl, rfl⟩
  · intro x
    rw [runPrivateConnectionsTick_setPendingMax]
    exact ⟨rfl, rfl⟩

theorem pendingMax_gates_outgoing_tick_only_witness :
    exampleDaemonBusyPendingOne.Config.PendingMax ≤
      (exampleDaemonBusyPendingOne.connections.PendingLen : Int) ∧
    ((exampleDaemonBusyPendingOne.runOutgoingConnectionsTick exampleEnv).connections =
        exampleDaemonBusyPendingOne.connections ∧
      (exampleDaemonBusyPendingOne.runOutgoingConnectionsTick
          exampleEnv).connections.PendingLen =
        exampleDaemonBusyPendingOne.connections.PendingLen ∧
      (exampleDaemonBusyPendingOne.runOutgoingConnectionsTick exampleEnv).calls =
        exampleDaemonBusyPendingOne.calls ++ [Call.pexTrusted] ∧
      ∀ k, (exampleDaemonBusyPendingOne.runDialPolicies exampleEnv
          (List.replicate k DialPolicy.outgoingTick)).connections =
        exampleDaemonBusyPendingOne.connections) ∧
    (∀ x : Int,
      ((exampleDaemonPendingOne.setPendingMax x).runTrustedDial exampleEnvTrusted).connections =
        (exampleDaemonPendingOne.runTrustedDial exampleEnvTrusted).connections ∧
      ((exampleDaemonPendingOne.setPendingMax x).runTrustedDial exampleEnvTrusted).calls =
        (exampleDaemonPendingOne.runTrustedDial exampleEnvTrusted).calls) ∧
    (exampleDaemonPendingOne.runTrustedDial exampleEnvTrusted).calls =
      [Call.pexTrustedPublic, Call.poolConnect "198.51.100.7:6000",
        Call.poolConnect "203.0.113.9:6000"] ∧
    (∀ x : Int,
      ((exampleDaemonPendingOne.setPendingMax x).runPrivateConnectionsTick
          exampleEnvPrivate).connections =
        (exampleDaemonPendingOne.runPrivateConnectionsTick exampleEnvPrivate).connections ∧
      ((exampleDaemonPendingOne.setPendingMax x).runPrivateConnectionsTick
          exampleEnvPrivate).calls =
        (exampleDaemonPendingOne.runPrivateConnectionsTick exampleEnvPrivate).calls) ∧
    (exampleDaemonPendingOne.runPrivateConnectionsTick exampleEnvPrivate).calls =
      [Call.pexPrivate, Call.poolConnect "198.51.100.7:6000",
        Call.poolConnect "203.0.113.9:6000"] :=
  ⟨by decide,
    (pendingMax_gates_outgoing_tick_only exampleEnv exampleDaemonBusyPendingOne).1 (by decide),
    (pendingMax_gates_outgoing_tick_only exampleEnvTrusted exampleDaemonPendingOne).2.1,
    by decide,
    (pendingMax_gates_outgoing_tick_only exampleEnvPrivate exampleDaemonPendingOne).2.2,
    by decide⟩

/-! ## Lemmas on the handshake gate -/

/-- The sweep over a list of rows only extends the call log, by one disconnect
request per `Connected` row that is older than `wait`, in row order. -/
theorem cull_fold_eq (env : Env) (wait now : Int) (rows : List connection) (d : Daemon) :
    rows.foldl
        (fun d c =>
          if c.State != ConnectionState.Connected then d
          else if c.ConnectedAt + wait < now then
            (d.Disconnect env c.Addr DisconnectReason.ErrDisconnectIntroductionTimeout).1
          else d)
        d =
      { d with
        calls := d.calls ++
          (rows.filter
            (fun c => c.State == ConnectionState.Connected &&
              decide (c.ConnectedAt + wait < now))).map
            (fun c => Call.poolDisconnect c.Addr
              DisconnectReason.ErrDisconnectIntroductionTimeout) } := by
  induction rows generalizing d with
  | nil => simp
  | cons c rest ih =>
    rw [List.foldl_cons, ih]
    by_cases hs : c.State = ConnectionState.Connected
    · by_cases ht : c.ConnectedAt + wait < now
      · simp [hs, ht, Daemon.Disconnect, Daemon.record, List.filter_cons]
      · simp [hs, ht, List.filter_cons]
    · simp [hs, List.filter_cons]

/-! ## Claims on the handshake gate -/

/-- C9: for every message event whose originating address has a row that has
not reached `Introduced` and whose message is not an Introduction,
`processMessageEvent` asks the pool to disconnect that address with reason
`NoIntroduction` before the message is processed; for an Introduction message,
or an address whose row is already `Introduced`, it requests no disconnect: the
only calls logged are the process call and those the process effect makes. -/
theorem processMessageEvent_handshake_gate (env : Env) (dm : Daemon) (e : messageEvent) :
    (∀ c, dm.connections.get e.Context.Addr = some c →
        c.State ≠ ConnectionState.Introduced → e.Message.isIntroduction = false →
        (dm.processMessageEvent env e).calls =
          dm.calls ++
            [Call.poolDisconnect e.Context.Addr DisconnectReason.ErrDisconnectNoIntroduction,
              Call.messageProcess e] ++
            (env.messageProcess
              (dm.calls ++ [Call.poolDisconnect e.Context.Addr
                DisconnectReason.ErrDisconnectNoIntroduction])
              dm.connections e).2) ∧
    ((e.Message.isIntroduction = true ∨
        ∃ c, dm.connections.get e.Context.Addr = some c ∧
          c.State = ConnectionState.Introduced) →
        (dm.processMessageEvent env e).calls =
          dm.calls ++ [Call.messageProcess e] ++
            (env.messageProcess dm.calls dm.connections e).2) := by
  constructor
  · intro c hget hstate hmsg
    have hn : dm.needsIntro e.Context.Addr = true := by
      unfold Daemon.needsIntro
      rw [hget]
      simp [connection.HasIntroduced, hstate]
    unfold Daemon.processMessageEvent
    simp [hn, hmsg, Daemon.messageProcess, Daemon.Disconnect, Daemon.record]
  · intro h
    unfold Daemon.processMessageEvent
    rcases h with h | ⟨c, hget, hstate⟩
    · simp [h, Daemon.messageProcess]
    · have hn : dm.needsIntro e.Context.Addr = false := by
        unfold Daemon.needsIntro
        rw [hget]
        simp [connection.HasIntroduced, hstate]
      simp [hn, Daemon.messageProcess]

theorem processMessageEvent_handshake_gate_witness :
    (exampleDaemonBusy.connections.get "10.0.0.5:5000" =
        some ⟨"10.0.0.5:5000", ConnectionState.Connected, false, 0, 0, 0, 0, 0, false⟩ ∧
      (exampleDaemonBusy.processMessageEvent exampleEnv
          ⟨Message.Ping, ⟨"10.0.0.5:5000", 1⟩⟩).calls =
        [Call.poolDisconnect "10.0.0.5:5000" DisconnectReason.ErrDisconnectNoIntroduction,
          Call.messageProcess ⟨Message.Ping, ⟨"10.0.0.5:5000", 1⟩⟩]) ∧
    (exampleDaemonBusy.processMessageEvent exampleEnv
        ⟨Message.Introduction 2998055602 2 6677 0, ⟨"10.0.0.5:5000", 1⟩⟩).calls =
      [Call.messageProcess ⟨Message.Introduction 2998055602 2 6677 0, ⟨"10.0.0.5:5000", 1⟩⟩] ∧
    (exampleDaemonBusy.processMessageEvent exampleEnv
        ⟨Message.Ping, ⟨"10.0.0.2:7777", 2⟩⟩).calls =
      [Call.messageProcess ⟨Message.Ping, ⟨"10.0.0.2:7777", 2⟩⟩] :=
  ⟨⟨by decide,
      (processMessageEvent_handshake_gate exampleEnv exampleDaemonBusy
        ⟨Message.Ping, ⟨"10.0.0.5:5000", 1⟩⟩).1
        ⟨"10.0.0.5:5000", ConnectionState.Connected, false, 0, 0, 0, 0, 0, false⟩
        (by decide) (by decide) (by decide)⟩,
    (processMessageEvent_handshake_gate exampleEnv exampleDaemonBusy
      ⟨Message.Introduction 2998055602 2 6677 0, ⟨"10.0.0.5:5000", 1⟩⟩).2
      (Or.inl (by decide)),
    (processMessageEvent_handshake_gate exampleEnv exampleDaemonBusy
      ⟨Message.Ping, ⟨"10.0.0.2:7777", 2⟩⟩).2
      (Or.inr ⟨⟨"10.0.0.2:7777", ConnectionState.Introduced, false, 0, 2998055602, 6677, 2, 0,
        true⟩, by decide, by decide⟩)⟩

/-- C10: for every connection table and every time `now`,
`cullInvalidConnections` asks the pool to disconnect, with reason
`IntroductionTimeout`, exactly the rows whose state is `Connected` and whose
`connectedAt + IntroductionWait` is strictly before `now`, once each and in
table order; it makes no other call and leaves the table unchanged, so rows in
state `Pending` or `Introduced` and `Connected` rows that are not older than
`IntroductionWait` are not disconnected by the sweep. -/
theorem cullInvalidConnections_disconnects (env : Env) (dm : Daemon) (now : Int) :
    (dm.cullInvalidConnections env now).calls =
      dm.calls ++
        (dm.connections.all.filter
          (fun c => c.State == ConnectionState.Connected &&
            decide (c.ConnectedAt + dm.Config.IntroductionWait < now))).map
          (fun c => Call.poolDisconnect c.Addr
            DisconnectReason.ErrDisconnectIntroductionTimeout) ∧
    (dm.cullInvalidConnections env now).connections = dm.connections ∧
    (∀ call, call ∈ (dm.cullInvalidConnections env now).calls.drop dm.calls.length ↔
      ∃ c ∈ dm.connections.all, c.State = ConnectionState.Connected ∧
        c.ConnectedAt + dm.Config.IntroductionWait < now ∧
        call = Call.poolDisconnect c.Addr
          DisconnectReason.ErrDisconnectIntroductionTimeout) := by
  have e := cull_fold_eq env dm.Config.IntroductionWait now dm.connections.all dm
  unfold Daemon.cullInvalidConnections
  rw [e]
  refine ⟨rfl, rfl, ?_⟩
  intro call
  simp only [List.drop_left, List.mem_map, List.mem_filter, Bool.and_eq_true,
    beq_iff_eq, decide_eq_true_eq]
  constructor
  · rintro ⟨c, ⟨hc, hs, ht⟩, rfl⟩
    exact ⟨c, hc, hs, ht, rfl⟩
  · rintro ⟨c, hc, hs, ht, rfl⟩
    exact ⟨c, ⟨hc, hs, ht⟩, rfl⟩

/-- Scenario S5 on the example table: at `t = 33 s` the sweep disconnects the
row connected at `t = 0` and spares the one connected at `t = 20 s`. -/
theorem cullInvalidConnections_example :
    (exampleDaemonBusy.cullInvalidConnections exampleEnv 33000000000).calls =
      [Call.poolDisconnect "10.0.0.5:5000"
        DisconnectReason.ErrDisconnectIntroductionTimeout] := by
  decide

/-! ## Lemmas on connect and disconnect events -/

/-- After a successful `remove` the table has no row for the address. -/
theorem remove_get_none (c : Connections) (splitAddr : String → Option (String × Nat))
    (addr : String) (conns : Connections) (h : c.remove splitAddr addr = Except.ok conns) :
    conns.get addr = none := by
  unfold Connections.remove at h
  split at h
  · cases h
  · cases h
    simp [Connections.get, List.find?_eq_none, List.mem_filter]

/-- The table after `onDisconnect` is the table after `remove`, or the old
table when `remove` reports that the row is absent. -/
theorem onDisconnect_connections (env : Env) (dm : Daemon) (e : DisconnectEvent) :
    (dm.onDisconnect env e).connections =
      (match dm.connections.remove env.splitAddr e.Addr with
        | Except.error _ => dm.connections
        | Except.ok conns => conns) := by
  unfold Daemon.onDisconnect Daemon.isTrustedPeer Daemon.record
  cases dm.connections.remove env.splitAddr e.Addr <;>
    (simp only []; split <;> [split; skip] <;> rfl)

/-- The call log after `onDisconnect`. -/
theorem onDisconnect_calls (env : Env) (dm : Daemon) (e : DisconnectEvent) :
    (dm.onDisconnect env e).calls =
      if e.Reason = DisconnectReason.ErrDisconnectIntroductionTimeout then
        if (match env.pexGetPeer dm.calls e.Addr with
            | none => false
            | some peer => peer.Trusted) = true then
          dm.calls ++ [Call.pexGetPeer e.Addr]
        else dm.calls ++ [Call.pexGetPeer e.Addr, Call.pexRemovePeer e.Addr]
      else dm.calls := by
  unfold Daemon.onDisconnect Daemon.isTrustedPeer Daemon.record
  cases dm.connections.remove env.splitAddr e.Addr <;>
    (simp only []
     by_cases hr : e.Reason = DisconnectReason.ErrDisconnectIntroductionTimeout
     · simp only [hr, if_true]
       cases env.pexGetPeer dm.calls e.Addr with
       | none => simp
       | some peer => cases hp : peer.Trusted <;> simp [hp]
     · simp only [hr, if_false])

/-- A connect event that passes admission reaches the end of `onConnect` with
only the admission questions to the pool logged. -/
theorem onConnect_admitted_eq (env : Env) (dm : Daemon) (e : ConnectEvent) (now : Int)
    (hexist : env.poolIsConnExist dm.calls e.Addr = Except.ok true)
    (hip : dm.ipCountMaxed env e.Addr = false)
    (hout : e.Solicited = true →
      ∃ n, env.poolOutgoingConnectionsNum (dm.calls ++ [Call.poolIsConnExist e.Addr]) =
        Except.ok n ∧ n ≤ dm.Config.OutgoingMax) :
    dm.onConnect env e now =
      (({ dm with
          calls := dm.calls ++
            (if e.Solicited then
              [Call.poolIsConnExist e.Addr, Call.poolOutgoingConnectionsNum]
            else [Call.poolIsConnExist e.Addr]) } : Daemon).onConnectAdmitted env e now) := by
  have hip1 : (dm.record (Call.poolIsConnExist e.Addr)).ipCountMaxed env e.Addr = false := hip
  unfold Daemon.onConnect
  rw [hexist]
  simp only [hip1]
  cases hs : e.Solicited with
  | false => simp [Daemon.record]
  | true =>
    obtain ⟨n, hn, hle⟩ := hout hs
    have hle1 : ¬ (dm.record (Call.poolIsConnExist e.Addr)).Config.OutgoingMax < n := by
      simp only [Daemon.record]; omega
    simp only [Daemon.record, List.append_assoc, List.singleton_append] at hle1 ⊢
    rw [hn]
    simp [hle1]

/-! ## Claims on connect and disconnect events -/

/-- C11: for every disconnect event `(addr, reason)`, after `onDisconnect` the
connection table has no row for `addr`, and `pex.RemovePeer(addr)` is called if
and only if the reason is `IntroductionTimeout` and `addr` is not a trusted pex
peer (an address unknown to pex counts as untrusted); for every other reason
no call at all is made to pex. -/
theorem onDisconnect_removes (env : Env) (dm : Daemon) (e : DisconnectEvent) :
    (dm.onDisconnect env e).connections.get e.Addr = none ∧
    (Call.pexRemovePeer e.Addr ∈ (dm.onDisconnect env e).calls.drop dm.calls.length ↔
      e.Reason = DisconnectReason.ErrDisconnectIntroductionTimeout ∧
        ¬ ∃ peer, env.pexGetPeer dm.calls e.Addr = some peer ∧ peer.Trusted = true) ∧
    (∀ call ∈ (dm.onDisconnect env e).calls.drop dm.calls.length,
      call = Call.pexGetPeer e.Addr ∨ call = Call.pexRemovePeer e.Addr) ∧
    (e.Reason ≠ DisconnectReason.ErrDisconnectIntroductionTimeout →
      (dm.onDisconnect env e).calls = dm.calls) := by
  refine ⟨?_, ?_, ?_, ?_⟩
  · rw [onDisconnect_connections]
    cases h : dm.connections.remove env.splitAddr e.Addr with
    | error err =>
      simp only []
      unfold Connections.remove at h
      split at h
      · assumption
      · cases h
    | ok conns => exact remove_get_none _ _ _ _ h
  · rw [onDisconnect_calls]
    by_cases hr : e.Reason = DisconnectReason.ErrDisconnectIntroductionTimeout
    · simp only [hr, if_true, true_and]
      cases hp : env.pexGetPeer dm.calls e.Addr with
      | none => simp
      | some peer => cases ht : peer.Trusted <;> simp [ht]
    · simp [hr]
  · rw [onDisconnect_calls]
    intro call hc
    by_cases hr : e.Reason = DisconnectReason.ErrDisconnectIntroductionTimeout
    · simp only [hr, if_true] at hc
      split at hc <;> simp at hc <;> tauto
    · simp [hr] at hc
  · intro hr
    rw [onDisconnect_calls, if_neg hr]

theorem onDisconnect_removes_witness :
    ((exampleDaemonBusy.onDisconnect exampleEnv
        ⟨"10.0.0.5:5000", DisconnectReason.ErrDisconnectIntroductionTimeout⟩).connections.get
        "10.0.0.5:5000" = none) ∧
    (exampleDaemonBusy.onDisconnect exampleEnv
        ⟨"10.0.0.5:5000", DisconnectReason.ErrDisconnectIntroductionTimeout⟩).calls =
      [Call.pexGetPeer "10.0.0.5:5000", Call.pexRemovePeer "10.0.0.5:5000"] ∧
    (exampleDaemonBusy.onDisconnect exampleEnv
        ⟨"198.51.100.7:6000", DisconnectReason.ErrDisconnectIntroductionTimeout⟩).calls =
      [Call.pexGetPeer "198.51.100.7:6000"] ∧
    (exampleDaemonBusy.onDisconnect exampleEnv
        ⟨"203.0.113.9:6000", DisconnectReason.ErrDisconnectIntroductionTimeout⟩).calls =
      [Call.pexGetPeer "203.0.113.9:6000", Call.pexRemovePeer "203.0.113.9:6000"] ∧
    (exampleDaemonBusy.onDisconnect exampleEnv
        ⟨"10.0.0.5:5000", DisconnectReason.ErrDisconnectIdle⟩).calls = [] :=
  ⟨(onDisconnect_removes exampleEnv exampleDaemonBusy
      ⟨"10.0.0.5:5000", DisconnectReason.ErrDisconnectIntroductionTimeout⟩).1,
    by decide, by decide, by decide,
    (onDisconnect_removes exampleEnv exampleDaemonBusy
      ⟨"10.0.0.5:5000", DisconnectReason.ErrDisconnectIdle⟩).2.2.2 (by decide)⟩

/-- C12: for every connect event whose address the pool still holds, if the
daemon is not localhost-only and `IPCount(base IP) ≥ IPCountsMax`, `onConnect`
asks the pool to disconnect the address with reason `IPLimitReached` and does
nothing else: the connection table is unchanged and no Introduction is sent. -/
theorem onConnect_ip_limit (env : Env) (dm : Daemon) (e : ConnectEvent) (now : Int)
    (ip : String) (port : Nat)
    (hexist : env.poolIsConnExist dm.calls e.Addr = Except.ok true)
    (hlocal : dm.Config.LocalhostOnly = false)
    (hsplit : env.splitAddr e.Addr = some (ip, port))
    (hcount : dm.Config.IPCountsMax ≤ (dm.connections.IPCount ip : Int)) :
    (dm.onConnect env e now).calls =
      dm.calls ++ [Call.poolIsConnExist e.Addr,
        Call.poolDisconnect e.Addr DisconnectReason.ErrDisconnectIPLimitReached] ∧
    (dm.onConnect env e now).connections = dm.connections ∧
    (∀ m, Call.poolSendMessage e.Addr m ∉ (dm.onConnect env e now).calls.drop dm.calls.length) := by
  have hip : (dm.record (Call.poolIsConnExist e.Addr)).ipCountMaxed env e.Addr = true := by
    unfold Daemon.ipCountMaxed
    rw [hsplit]
    simp [Daemon.record, hlocal, hcount]
  have e1 : dm.onConnect env e now =
      ((dm.record (Call.poolIsConnExist e.Addr)).Disconnect env e.Addr
        DisconnectReason.ErrDisconnectIPLimitReached).1 := by
    unfold Daemon.onConnect
    rw [hexist]
    simp only [hip, if_true]
  rw [e1]
  refine ⟨by simp [Daemon.Disconnect, Daemon.record], rfl, ?_⟩
  intro m
  simp [Daemon.Disconnect, Daemon.record]

theorem onConnect_ip_limit_witness :
    exampleEnvS4.poolIsConnExist exampleDaemonS4.calls "203.0.113.0:41000" = Except.ok true ∧
    exampleDaemonS4.Config.LocalhostOnly = false ∧
    exampleDaemonS4.Config.IPCountsMax = 3 ∧
    exampleDaemonS4.connections.IPCount "203.0.113.0" = 3 ∧
    (exampleDaemonS4.onConnect exampleEnvS4 ⟨"203.0.113.0:41000", false⟩ 7).calls =
      exampleDaemonS4.calls ++ [Call.poolIsConnExist "203.0.113.0:41000",
        Call.poolDisconnect "203.0.113.0:41000"
          DisconnectReason.ErrDisconnectIPLimitReached] ∧
    (exampleDaemonS4.onConnect exampleEnvS4 ⟨"203.0.113.0:41000", false⟩ 7).connections =
      exampleDaemonS4.connections ∧
    (∀ m, Call.poolSendMessage "203.0.113.0:41000" m ∉
      (exampleDaemonS4.onConnect exampleEnvS4 ⟨"203.0.113.0:41000", false⟩ 7).calls.drop
        exampleDaemonS4.calls.length) :=
  ⟨rfl, by decide, by decide, by decide,
    onConnect_ip_limit exampleEnvS4 exampleDaemonS4 ⟨"203.0.113.0:41000", false⟩ 7
      "203.0.113.0" 41000 rfl (by decide) (by decide) (by decide)⟩

/-- C13 fails on the code: when the pool accepts an incoming connection from
`10.0.0.2:7777` and sending our Introduction fails, `onConnect` leaves the row
`Connected` and requests no disconnect; the reason `VersionSendFailed` is never
used. -/
theorem onConnect_send_failure_no_disconnect :
    exampleEnvSendFails.poolSendMessage [Call.poolIsConnExist "10.0.0.2:7777"] "10.0.0.2:7777"
        (Message.Introduction 2711724449 2 6677 0) = some "write queue full" ∧
    (exampleDaemon.onConnect exampleEnvSendFails ⟨"10.0.0.2:7777", false⟩ 7).calls =
      [Call.poolIsConnExist "10.0.0.2:7777",
        Call.poolSendMessage "10.0.0.2:7777" (Message.Introduction 2711724449 2 6677 0)] ∧
    (exampleDaemon.onConnect exampleEnvSendFails ⟨"10.0.0.2:7777", false⟩ 7).connections.get
        "10.0.0.2:7777" =
      some ⟨"10.0.0.2:7777", ConnectionState.Connected, false, 7, 0, 0, 0, 0, false⟩ ∧
    Call.poolDisconnect "10.0.0.2:7777" DisconnectReason.ErrDisconnectVersionSendFailed ∉
      (exampleDaemon.onConnect exampleEnvSendFails ⟨"10.0.0.2:7777", false⟩ 7).calls := by
  decide

/-- C14 fails as stated: a connect event that is not solicited, for an address
whose row is `Pending` and outgoing, makes `connections.connected` succeed with
a row whose `Outgoing` differs from `Solicited`; `onConnect` then sends the
Introduction and requests no disconnect. -/
theorem onConnect_outgoing_mismatch_counterexample :
    exampleDaemonBusy.connections.connected exampleEnv.splitAddr "198.51.100.7:6000" 7 =
      Except.ok
        (⟨"198.51.100.7:6000", ConnectionState.Connected, true, 7, 0, 6000, 0, 0, false⟩,
          exampleConnectionsAdvanced) ∧
    (exampleDaemonBusy.onConnect exampleEnv ⟨"198.51.100.7:6000", false⟩ 7).calls =
      [Call.poolIsConnExist "198.51.100.7:6000",
        Call.poolSendMessage "198.51.100.7:6000" (Message.Introduction 2711724449 2 6677 0)] ∧
    Call.poolDisconnect "198.51.100.7:6000" DisconnectReason.ErrDisconnectIncomprehensibleError ∉
      (exampleDaemonBusy.onConnect exampleEnv ⟨"198.51.100.7:6000", false⟩ 7).calls ∧
    ¬ (∀ (env : Env) (dm : Daemon) (e : ConnectEvent) (now : Int) (c : connection)
        (conns : Connections),
        env.poolIsConnExist dm.calls e.Addr = Except.ok true →
        dm.ipCountMaxed env e.Addr = false →
        e.Solicited = false →
        dm.connections.connected env.splitAddr e.Addr now = Except.ok (c, conns) →
        c.Outgoing ≠ e.Solicited →
        Call.poolDisconnect e.Addr DisconnectReason.ErrDisconnectIncomprehensibleError ∈
          (dm.onConnect env e now).calls.drop dm.calls.length) := by
  refine ⟨rfl, by decide, by decide, ?_⟩
  intro h
  have h1 := h exampleEnv exampleDaemonBusy ⟨"198.51.100.7:6000", false⟩ 7
    ⟨"198.51.100.7:6000", ConnectionState.Connected, true, 7, 0, 6000, 0, 0, false⟩
    exampleConnectionsAdvanced rfl (by decide) (by decide) rfl (by decide)
  revert h1
  decide

/-- C14 (amended): for every connect event that passes admission, if
`connections.connected` succeeds with a row whose outgoing flag differs from
the solicited flag, `onConnect` requests no disconnect: it keeps the table that
`connected` returned and sends our Introduction.  A disconnect with reason
`IncomprehensibleError` is requested when `connections.connected` fails. -/
theorem onConnect_outgoing_mismatch (env : Env) (dm : Daemon) (e : ConnectEvent) (now : Int)
    (hexist : env.poolIsConnExist dm.calls e.Addr = Except.ok true)
    (hip : dm.ipCountMaxed env e.Addr = false)
    (hout : e.Solicited = true →
      ∃ n, env.poolOutgoingConnectionsNum (dm.calls ++ [Call.poolIsConnExist e.Addr]) =
        Except.ok n ∧ n ≤ dm.Config.OutgoingMax) :
    (∀ c conns, dm.connections.connected env.splitAddr e.Addr now = Except.ok (c, conns) →
      c.Outgoing ≠ e.Solicited →
      (dm.onConnect env e now).calls =
        dm.calls ++
          (if e.Solicited then
            [Call.poolIsConnExist e.Addr, Call.poolOutgoingConnectionsNum]
          else [Call.poolIsConnExist e.Addr]) ++
          [Call.poolSendMessage e.Addr
            (Message.Introduction env.messagesMirror dm.Config.ProtocolVersion
              env.poolConfigPort dm.Config.BlockchainPubkey)] ∧
      (dm.onConnect env e now).connections = conns) ∧
    (∀ err, dm.connections.connected env.splitAddr e.Addr now = Except.error err →
      (dm.onConnect env e now).calls =
        dm.calls ++
          (if e.Solicited then
            [Call.poolIsConnExist e.Addr, Call.poolOutgoingConnectionsNum]
          else [Call.poolIsConnExist e.Addr]) ++
          [Call.poolDisconnect e.Addr DisconnectReason.ErrDisconnectIncomprehensibleError] ∧
      (dm.onConnect env e now).connections = dm.connections) := by
  rw [onConnect_admitted_eq env dm e now hexist hip hout]
  constructor
  · intro c conns hc _
    unfold Daemon.onConnectAdmitted
    simp only [hc]
    exact ⟨rfl, rfl⟩
  · intro err hc
    unfold Daemon.onConnectAdmitted
    simp only [hc]
    exact ⟨rfl, rfl⟩

theorem onConnect_outgoing_mismatch_witness :
    exampleEnv.poolIsConnExist exampleDaemonBusy.calls "198.51.100.7:6000" = Except.ok true ∧
    exampleDaemonBusy.ipCountMaxed exampleEnv "198.51.100.7:6000" = false ∧
    exampleDaemonBusy.connections.connected exampleEnv.splitAddr "198.51.100.7:6000" 7 =
      Except.ok
        (⟨"198.51.100.7:6000", ConnectionState.Connected, true, 7, 0, 6000, 0, 0, false⟩,
          exampleConnectionsAdvanced) ∧
    ((exampleDaemonBusy.onConnect exampleEnv ⟨"198.51.100.7:6000", false⟩ 7).calls =
        [] ++ [Call.poolIsConnExist "198.51.100.7:6000"] ++
          [Call.poolSendMessage "198.51.100.7:6000"
            (Message.Introduction 2711724449 2 6677 0)] ∧
      (exampleDaemonBusy.onConnect exampleEnv ⟨"198.51.100.7:6000", false⟩ 7).connections =
        exampleConnectionsAdvanced) ∧
    exampleDaemonBusy.connections.connected exampleEnv.splitAddr "10.0.0.5:5000" 7 =
      Except.error "connection is not pending" ∧
    ((exampleDaemonBusy.onConnect exampleEnv ⟨"10.0.0.5:5000", false⟩ 7).calls =
        [] ++ [Call.poolIsConnExist "10.0.0.5:5000"] ++
          [Call.poolDisconnect "10.0.0.5:5000"
            DisconnectReason.ErrDisconnectIncomprehensibleError] ∧
      (exampleDaemonBusy.onConnect exampleEnv ⟨"10.0.0.5:5000", false⟩ 7).connections =
        exampleConnections) :=
  ⟨rfl, by decide, rfl,
    (onConnect_outgoing_mismatch exampleEnv exampleDaemonBusy ⟨"198.51.100.7:6000", false⟩ 7
      rfl (by decide) (fun h => absurd h (by decide))).1
      ⟨"198.51.100.7:6000", ConnectionState.Connected, true, 7, 0, 6000, 0, 0, false⟩
      exampleConnectionsAdvanced rfl (by decide),
    rfl,
    (onConnect_outgoing_mismatch exampleEnv exampleDaemonBusy ⟨"10.0.0.5:5000", false⟩ 7
      rfl (by decide) (fun h => absurd h (by decide))).2 "connection is not pending" rfl⟩

/-! ## Claims on transaction announcements -/

/-- C15 fails on the code: with the default `MaxTxnAnnounceNum = 16` and
outgoing connections enabled, `AnnounceTxns` given 17 hashes broadcasts one
`AnnounceTxns` message that carries all 17 of them, whereas `divideHashes`
would cut the list into a batch of 16 and a batch of 1. -/
theorem AnnounceTxns_single_unbounded_message :
    exampleDaemon.Config.DisableOutgoingConnections = false ∧
    exampleDaemon.Config.MaxTxnAnnounceNum = 16 ∧
    (exampleDaemon.AnnounceTxns exampleEnv (List.range 17)).1.calls =
      [Call.poolBroadcastMessage (Message.AnnounceTxns (List.range 17))] ∧
    (List.range 17).length = 17 ∧
    divideHashes (List.range 17) exampleDaemon.Config.MaxTxnAnnounceNum =
      [List.range 16, [16]] := by
  decide

/-- Whatever the configured batch size, `AnnounceTxns` on a non-empty list
broadcasts exactly one message, which carries the whole list. -/
theorem AnnounceTxns_calls (env : Env) (dm : Daemon) (txns : List SHA256)
    (hout : dm.Config.DisableOutgoingConnections = false) (hne : txns ≠ []) :
    (dm.AnnounceTxns env txns).1.calls =
      dm.calls ++ [Call.poolBroadcastMessage (Message.AnnounceTxns txns)] := by
  have hl : ¬ txns.length = 0 := by
    intro h
    exact hne (List.length_eq_zero.mp h)
  unfold Daemon.AnnounceTxns
  simp [hout, hl, Daemon.BroadcastMessage, Daemon.record]

/-! ## Claims on the configuration -/

/-- The localhost-only block of `preprocess` panics exactly when localhost-only
is asked for and either no address is given and no localhost IP can be
obtained, or the given address is not localhost. -/
theorem preprocess_none_iff (env : Env) (cfg : Config) :
    Config.preprocess env cfg = none ↔
      cfg.Daemon.LocalhostOnly = true ∧
        ((cfg.Daemon.Address = "" ∧ ∃ err, env.localhostIP = Except.error err) ∨
          (cfg.Daemon.Address ≠ "" ∧ env.isLocalhost cfg.Daemon.Address = false)) := by
  unfold Config.preprocess Config.preprocessLocalhost
  cases hl : cfg.Daemon.LocalhostOnly with
  | false => simp
  | true =>
    by_cases ha : cfg.Daemon.Address = ""
    · cases hip : env.localhostIP <;> simp [ha]
    · cases hloc : env.isLocalhost cfg.Daemon.Address <;> simp [ha]

/-- C16 fails as stated: with networking disabled, localhost-only set and the
public address `8.8.8.8`, `preprocess` panics and returns no configuration. -/
theorem preprocess_panics_counterexample :
    exampleConfigBadLocalhost.Daemon.DisableNetworking = true ∧
    Config.preprocess exampleEnv exampleConfigBadLocalhost = none ∧
    ¬ (∀ (env : Env) (cfg : Config), cfg.Daemon.DisableNetworking = true →
        ∃ out, Config.preprocess env cfg = some out ∧
          out.Pex.Disabled = true ∧
          out.Daemon.DisableIncomingConnections = true ∧
          out.Daemon.DisableOutgoingConnections = true) := by
  refine ⟨by decide, by decide, ?_⟩
  intro h
  obtain ⟨out, hout, _⟩ := h exampleEnv exampleConfigBadLocalhost (by decide)
  have hnone : Config.preprocess exampleEnv exampleConfigBadLocalhost = none := by decide
  rw [hnone] at hout
  cases hout

/-- C16 (amended): for every configuration on which the localhost-only check
of `preprocess` does not panic (localhost-only is unset, or no address is given
and a localhost IP is obtained, or the given address is localhost),
`preprocess` returns a configuration; if `DisableNetworking` is set, its
`Pex.Disabled`, `Daemon.DisableIncomingConnections` and
`Daemon.DisableOutgoingConnections` are all true whatever their input values,
and otherwise those three flags are returned as given. -/
theorem preprocess_networking_flags (env : Env) (cfg : Config)
    (hok : cfg.Daemon.LocalhostOnly = false ∨
      (cfg.Daemon.Address = "" ∧ ∃ ip, env.localhostIP = Except.ok ip) ∨
      (cfg.Daemon.Address ≠ "" ∧ env.isLocalhost cfg.Daemon.Address = true)) :
    ∃ out, Config.preprocess env cfg = some out ∧
      (cfg.Daemon.DisableNetworking = true →
        out.Pex.Disabled = true ∧
        out.Daemon.DisableIncomingConnections = true ∧
        out.Daemon.DisableOutgoingConnections = true) ∧
      (cfg.Daemon.DisableNetworking = false →
        out.Pex.Disabled = cfg.Pex.Disabled ∧
        out.Daemon.DisableIncomingConnections = cfg.Daemon.DisableIncomingConnections ∧
        out.Daemon.DisableOutgoingConnections = cfg.Daemon.DisableOutgoingConnections) := by
  have hflags : ∀ mid, Config.preprocessLocalhost env cfg = some mid →
      mid.Daemon.DisableNetworking = cfg.Daemon.DisableNetworking ∧
      mid.Pex.Disabled = cfg.Pex.Disabled ∧
      mid.Daemon.DisableIncomingConnections = cfg.Daemon.DisableIncomingConnections ∧
      mid.Daemon.DisableOutgoingConnections = cfg.Daemon.DisableOutgoingConnections := by
    intro mid hmid
    unfold Config.preprocessLocalhost at hmid
    split at hmid
    · split at hmid
      · split at hmid
        · cases hmid
        · cases hmid
          exact ⟨rfl, rfl, rfl, rfl⟩
      · split at hmid
        · cases hmid
        · cases hmid
          exact ⟨rfl, rfl, rfl, rfl⟩
    · cases hmid
      exact ⟨rfl, rfl, rfl, rfl⟩
  have hsome : Config.preprocessLocalhost env cfg ≠ none := by
    intro hnone
    have hp : Config.preprocess env cfg = none := by
      unfold Config.preprocess
      rw [hnone]
      rfl
    rw [preprocess_none_iff] at hp
    obtain ⟨hl, hbad⟩ := hp
    rcases hok with h | ⟨ha, ip, hip⟩ | ⟨ha, hloc⟩
    · rw [h] at hl
      cases hl
    · rcases hbad with ⟨_, err, herr⟩ | ⟨hna, _⟩
      · rw [hip] at herr
        cases herr
      · exact hna ha
    · rcases hbad with ⟨hna, _⟩ | ⟨_, hnl⟩
      · exact ha hna
      · rw [hloc] at hnl
        cases hnl
  have hloc : ∃ mid, Config.preprocessLocalhost env cfg = some mid ∧
      mid.Daemon.DisableNetworking = cfg.Daemon.DisableNetworking ∧
      mid.Pex.Disabled = cfg.Pex.Disabled ∧
      mid.Daemon.DisableIncomingConnections = cfg.Daemon.DisableIncomingConnections ∧
      mid.Daemon.DisableOutgoingConnections = cfg.Daemon.DisableOutgoingConnections := by
    cases hm : Config.preprocessLocalhost env cfg with
    | none => exact absurd hm hsome
    | some mid => exact ⟨mid, rfl, hflags mid hm⟩
  obtain ⟨mid, hmid, hn, h1, h2, h3⟩ := hloc
  refine ⟨Config.preprocessNetworking mid, ?_, ?_, ?_⟩
  · unfold Config.preprocess
    rw [hmid]
    rfl
  · intro hd
    have hd1 : mid.Daemon.DisableNetworking = true := by rw [hn]; exact hd
    unfold Config.preprocessNetworking
    simp [hd1]
  · intro hd
    have hd1 : mid.Daemon.DisableNetworking = false := by rw [hn]; exact hd
    unfold Config.preprocessNetworking
    simp [hd1, h1, h2, h3]

theorem preprocess_networking_flags_witness :
    exampleConfigOffline.Daemon.LocalhostOnly = false ∧
    exampleConfigOffline.Daemon.DisableNetworking = true ∧
    (∃ out, Config.preprocess exampleEnv exampleConfigOffline = some out ∧
      (exampleConfigOffline.Daemon.DisableNetworking = true →
        out.Pex.Disabled = true ∧
        out.Daemon.DisableIncomingConnections = true ∧
        out.Daemon.DisableOutgoingConnections = true) ∧
      (exampleConfigOffline.Daemon.DisableNetworking = false →
        out.Pex.Disabled = exampleConfigOffline.Pex.Disabled ∧
        out.Daemon.DisableIncomingConnections =
          exampleConfigOffline.Daemon.DisableIncomingConnections ∧
        out.Daemon.DisableOutgoingConnections =
          exampleConfigOffline.Daemon.DisableOutgoingConnections)) :=
  ⟨by decide, by decide,
    preprocess_networking_flags exampleEnv exampleConfigOffline (Or.inl (by decide))⟩

/-! ## Lemmas on block publishing and transaction resend -/

/-- One iteration of the resend loop: the transaction is broadcast and its hash
is kept exactly when the broadcast returned `nil`. -/
theorem resendStep_eq (env : Env) (st : Daemon × List SHA256) (txn : UnconfirmedTxn) :
    Daemon.resendStep env st txn =
      ((st.1.BroadcastTransaction env txn.Transaction).1,
        if (st.1.BroadcastTransaction env txn.Transaction).2 == none then
          st.2 ++ [txn.Transaction.Hash]
        else st.2) := by
  unfold Daemon.resendStep
  cases h : st.1.BroadcastTransaction env txn.Transaction with
  | mk d r => cases r <;> rfl

/-- The hashes collected by the resend loop are those of the transactions
whose broadcast succeeded, in list order, after the hashes collected before. -/
theorem resend_fold_hashes (env : Env) (txns : List UnconfirmedTxn) (d : Daemon)
    (acc : List SHA256) :
    (txns.foldl (Daemon.resendStep env) (d, acc)).2 =
      acc ++ ((txns.zip (Daemon.broadcastSucceeds env d txns)).filter (fun p => p.2)).map
        (fun p => p.1.Transaction.Hash) := by
  induction txns generalizing d acc with
  | nil => simp [Daemon.broadcastSucceeds]
  | cons txn rest ih =>
    rw [List.foldl_cons, resendStep_eq, ih]
    simp only [Daemon.broadcastSucceeds, List.zip_cons_cons]
    cases h : ((d.BroadcastTransaction env txn.Transaction).2 == none) <;>
      simp [List.filter_cons]

/-- One outcome is recorded per transaction. -/
theorem broadcastSucceeds_length (env : Env) (txns : List UnconfirmedTxn) (d : Daemon) :
    (Daemon.broadcastSucceeds env d txns).length = txns.length := by
  induction txns generalizing d with
  | nil => rfl
  | cons txn rest ih => simp [Daemon.broadcastSucceeds, ih]

/-! ## Claims on block publishing and transaction resend -/

/-- C17: when outgoing connections are enabled and `CreateAndExecuteBlock`
succeeds with block `sb` but broadcasting it fails with error `err`,
`CreateAndPublishBlock` returns a pointer to `sb` together with `err`, having
made no call other than the creation and the broadcast; when outgoing
connections are disabled it returns `nil` and an error without any call. -/
theorem CreateAndPublishBlock_results (env : Env) (dm : Daemon) :
    (dm.Config.DisableOutgoingConnections = false →
      ∀ sb err, env.visorCreateAndExecuteBlock dm.calls = Except.ok sb →
        env.poolBroadcastMessage (dm.calls ++ [Call.visorCreateAndExecuteBlock])
          (Message.GiveBlocks [sb]) = some err →
        (dm.CreateAndPublishBlock env).2 = (some sb, some err) ∧
        (dm.CreateAndPublishBlock env).1.calls =
          dm.calls ++ [Call.visorCreateAndExecuteBlock,
            Call.poolBroadcastMessage (Message.GiveBlocks [sb])]) ∧
    (dm.Config.DisableOutgoingConnections = true →
      (dm.CreateAndPublishBlock env).2.1 = none ∧
      (dm.CreateAndPublishBlock env).2.2 ≠ none ∧
      (dm.CreateAndPublishBlock env).1 = dm ∧
      (dm.CreateAndPublishBlock env).1.calls = dm.calls) := by
  constructor
  · intro hout sb err hcreate hfail
    simp [Daemon.CreateAndPublishBlock, Daemon.broadcastBlock, Daemon.BroadcastMessage,
      Daemon.record, hout, hcreate, hfail]
  · intro hoff
    unfold Daemon.CreateAndPublishBlock
    rw [if_pos hoff]
    simp

theorem CreateAndPublishBlock_results_witness :
    exampleDaemon.Config.DisableOutgoingConnections = false ∧
    exampleEnvBroadcastFails.visorCreateAndExecuteBlock exampleDaemon.calls =
      Except.ok ⟨13, 0⟩ ∧
    ((exampleDaemon.CreateAndPublishBlock exampleEnvBroadcastFails).2 =
        (some ⟨13, 0⟩, some "Connection pool is empty") ∧
      (exampleDaemon.CreateAndPublishBlock exampleEnvBroadcastFails).1.calls =
        exampleDaemon.calls ++ [Call.visorCreateAndExecuteBlock,
          Call.poolBroadcastMessage (Message.GiveBlocks [⟨13, 0⟩])]) ∧
    exampleDaemonOffline.Config.DisableOutgoingConnections = true ∧
    ((exampleDaemonOffline.CreateAndPublishBlock exampleEnv).2.1 = none ∧
      (exampleDaemonOffline.CreateAndPublishBlock exampleEnv).2.2 ≠ none ∧
      (exampleDaemonOffline.CreateAndPublishBlock exampleEnv).1 = exampleDaemonOffline ∧
      (exampleDaemonOffline.CreateAndPublishBlock exampleEnv).1.calls =
        exampleDaemonOffline.calls) :=
  ⟨by decide, rfl,
    (CreateAndPublishBlock_results exampleEnvBroadcastFails exampleDaemon).1 (by decide)
      ⟨13, 0⟩ "Connection pool is empty" rfl (by decide),
    by decide,
    (CreateAndPublishBlock_results exampleEnv exampleDaemonOffline).2 (by decide)⟩

/-- C18: when outgoing connections are enabled and the chain engine returns
the unconfirmed transactions `txns`, `ResendUnconfirmedTxns` returns a nil
error and exactly the hashes of the transactions whose `BroadcastTransaction`
returned nil, in the order of `txns` (so a sublist of the hashes of `txns`); a
failing broadcast only leaves that hash out. -/
theorem ResendUnconfirmedTxns_hashes (env : Env) (dm : Daemon) (txns : List UnconfirmedTxn)
    (hout : dm.Config.DisableOutgoingConnections = false)
    (hget : env.visorGetAllUnconfirmedTransactions dm.calls = Except.ok txns) :
    (dm.ResendUnconfirmedTxns env).2.2 = none ∧
    (dm.ResendUnconfirmedTxns env).2.1 =
      ((txns.zip (Daemon.broadcastSucceeds env
          (dm.record Call.visorGetAllUnconfirmedTransactions) txns)).filter
        (fun p => p.2)).map (fun p => p.1.Transaction.Hash) ∧
    List.Sublist (dm.ResendUnconfirmedTxns env).2.1
      (txns.map (fun t => t.Transaction.Hash)) := by
  have e : (dm.ResendUnconfirmedTxns env).2.1 =
      ((txns.zip (Daemon.broadcastSucceeds env
          (dm.record Call.visorGetAllUnconfirmedTransactions) txns)).filter
        (fun p => p.2)).map (fun p => p.1.Transaction.Hash) := by
    unfold Daemon.ResendUnconfirmedTxns
    rw [if_neg (by simp [hout]), hget]
    simp only []
    rw [resend_fold_hashes]
    simp
  refine ⟨?_, e, ?_⟩
  · unfold Daemon.ResendUnconfirmedTxns
    rw [if_neg (by simp [hout]), hget]
  · rw [e]
    have hsub : List.Sublist
        ((txns.zip (Daemon.broadcastSucceeds env
          (dm.record Call.visorGetAllUnconfirmedTransactions) txns)).filter (fun p => p.2))
        (txns.zip (Daemon.broadcastSucceeds env
          (dm.record Call.visorGetAllUnconfirmedTransactions) txns)) :=
      List.filter_sublist _
    have hmap := hsub.map (fun p : UnconfirmedTxn × Bool => p.1.Transaction.Hash)
    refine hmap.trans ?_
    have hz : (txns.zip (Daemon.broadcastSucceeds env
          (dm.record Call.visorGetAllUnconfirmedTransactions) txns)).map
        (fun p : UnconfirmedTxn × Bool => p.1.Transaction.Hash) =
        ((txns.zip (Daemon.broadcastSucceeds env
          (dm.record Call.visorGetAllUnconfirmedTransactions) txns)).map Prod.fst).map
          (fun t => t.Transaction.Hash) := by
      rw [List.map_map]
      rfl
    rw [hz, List.map_fst_zip _ _ (by rw [broadcastSucceeds_length])]

theorem ResendUnconfirmedTxns_hashes_witness :
    exampleDaemon.Config.DisableOutgoingConnections = false ∧
    exampleEnvOneBroadcastFails.visorGetAllUnconfirmedTransactions exampleDaemon.calls =
      Except.ok exampleUnconfirmed ∧
    (exampleDaemon.ResendUnconfirmedTxns exampleEnvOneBroadcastFails).2.1 = [101, 103] ∧
    ((exampleDaemon.ResendUnconfirmedTxns exampleEnvOneBroadcastFails).2.2 = none ∧
      (exampleDaemon.ResendUnconfirmedTxns exampleEnvOneBroadcastFails).2.1 =
        ((exampleUnconfirmed.zip
            (Daemon.broadcastSucceeds exampleEnvOneBroadcastFails
              (exampleDaemon.record Call.visorGetAllUnconfirmedTransactions)
              exampleUnconfirmed)).filter
          (fun p => p.2)).map (fun p => p.1.Transaction.Hash) ∧
      List.Sublist (exampleDaemon.ResendUnconfirmedTxns exampleEnvOneBroadcastFails).2.1
        (exampleUnconfirmed.map (fun t => t.Transaction.Hash))) :=
  ⟨by decide, rfl, by decide,
    ResendUnconfirmedTxns_hashes exampleEnvOneBroadcastFails exampleDaemon
      exampleUnconfirmed (by decide) rfl⟩

/-! ## Claims on the IP limit -/

/-- C19 fails as stated: with `LocalhostOnly` set, `ipCountMaxed` returns true
for the address `localhost`, which does not split into ip and port. -/
theorem ipCountMaxed_localhost_only_counterexample :
    exampleDaemonLocalhostOnly.Config.LocalhostOnly = true ∧
    exampleEnv.splitAddr "localhost" = none ∧
    exampleDaemonLocalhostOnly.ipCountMaxed exampleEnv "localhost" = true ∧
    ¬ (∀ (env : Env) (dm : Daemon) (addr : String),
        dm.Config.LocalhostOnly = true → dm.ipCountMaxed env addr = false) := by
  refine ⟨by decide, by decide, by decide, ?_⟩
  intro h
  have h1 := h exampleEnv exampleDaemonLocalhostOnly "localhost" (by decide)
  revert h1
  decide

/-- C19 (amended): for every connection table, whenever `LocalhostOnly` is set
`ipCountMaxed` returns false for every address that splits into ip and port; an
address that does not split is refused first, with the answer true. -/
theorem ipCountMaxed_localhost_only (env : Env) (dm : Daemon) (addr : String)
    (hl : dm.Config.LocalhostOnly = true) :
    (∀ ip port, env.splitAddr addr = some (ip, port) → dm.ipCountMaxed env addr = false) ∧
    (env.splitAddr addr = none → dm.ipCountMaxed env addr = true) ∧
    dm.ipCountMaxed env addr = (env.splitAddr addr).isNone := by
  have e : dm.ipCountMaxed env addr = (env.splitAddr addr).isNone := by
    unfold Daemon.ipCountMaxed
    cases env.splitAddr addr with
    | none => rfl
    | some r => simp [hl]
  refine ⟨?_, ?_, e⟩
  · intro ip port hs
    rw [e, hs]
    rfl
  · intro hs
    rw [e, hs]
    rfl

theorem ipCountMaxed_localhost_only_witness :
    exampleDaemonLocalhostOnly.Config.LocalhostOnly = true ∧
    exampleEnv.splitAddr "127.0.0.1:6677" = some ("127.0.0.1", 6677) ∧
    exampleDaemonLocalhostOnly.ipCountMaxed exampleEnv "127.0.0.1:6677" = false :=
  ⟨by decide, by decide,
    (ipCountMaxed_localhost_only exampleEnv exampleDaemonLocalhostOnly "127.0.0.1:6677"
      (by decide)).1 "127.0.0.1" 6677 (by decide)⟩

/-! ## Lemmas on wallet loading -/

/-- An entry that is not a regular file with the wallet extension is skipped. -/
theorem LoadWalletsLoop_skip {ReadableWallet Wallet : Type}
    (fs : WalletFiles ReadableWallet Wallet) (dir : String) (e : FileInfo)
    (rest : List FileInfo) (acc : List Wallet)
    (h : (e.IsRegular && HasSuffix e.Name fs.WalletExt) = false) :
    LoadWalletsLoop fs dir (e :: rest) acc = LoadWalletsLoop fs dir rest acc ∧
    walletEntries fs (e :: rest) = walletEntries fs rest := by
  constructor
  · cases hr : e.IsRegular with
    | false => simp only [LoadWalletsLoop, hr, Bool.false_eq_true, if_false]
    | true =>
      rw [hr] at h
      simp only [Bool.true_and] at h
      simp only [LoadWalletsLoop, hr, h, if_true, Bool.not_false]
  · unfold walletEntries
    rw [List.filter_cons, h]
    simp

/-- A regular file with the wallet extension is loaded; a failure aborts. -/
theorem LoadWalletsLoop_select {ReadableWallet Wallet : Type}
    (fs : WalletFiles ReadableWallet Wallet) (dir : String) (e : FileInfo)
    (rest : List FileInfo) (acc : List Wallet)
    (h : (e.IsRegular && HasSuffix e.Name fs.WalletExt) = true) :
    LoadWalletsLoop fs dir (e :: rest) acc =
      (match loadEntry fs dir e with
        | Except.error err => Except.error err
        | Except.ok w => LoadWalletsLoop fs dir rest (acc ++ [w])) ∧
    walletEntries fs (e :: rest) = e :: walletEntries fs rest := by
  rw [Bool.and_eq_true] at h
  obtain ⟨hr, hs⟩ := h
  constructor
  · unfold loadEntry
    simp only [LoadWalletsLoop, hr, hs, if_true, Bool.not_true, Bool.false_eq_true, if_false]
    cases fs.LoadReadableWallet (fs.Join dir e.Name) with
    | error err => rfl
    | ok readable =>
      simp only []
      cases fs.ToWallet readable with
      | error err => rfl
      | ok w => rfl
  · unfold walletEntries
    rw [List.filter_cons]
    simp [hr, hs]

/-- The loop succeeds exactly when every considered entry loads, and then
appends the loaded wallets in order. -/
theorem LoadWalletsLoop_ok_iff {ReadableWallet Wallet : Type}
    (fs : WalletFiles ReadableWallet Wallet) (dir : String) (entries : List FileInfo)
    (acc ws : List Wallet) :
    LoadWalletsLoop fs dir entries acc = Except.ok ws ↔
      ∃ loaded, ws = acc ++ loaded ∧
        (walletEntries fs entries).map (loadEntry fs dir) = loaded.map Except.ok := by
  induction entries generalizing acc with
  | nil =>
    simp only [LoadWalletsLoop, walletEntries, List.filter_nil, List.map_nil]
    constructor
    · intro h
      cases h
      exact ⟨[], by simp, rfl⟩
    · rintro ⟨loaded, hws, hl⟩
      have : loaded = [] := by
        cases loaded with
        | nil => rfl
        | cons a b => simp at hl
      subst this
      simp [hws]
  | cons e rest ih =>
    cases hsel : (e.IsRegular && HasSuffix e.Name fs.WalletExt) with
    | false =>
      obtain ⟨h1, h2⟩ := LoadWalletsLoop_skip fs dir e rest acc hsel
      rw [h1, h2]
      exact ih acc
    | true =>
      obtain ⟨h1, h2⟩ := LoadWalletsLoop_select fs dir e rest acc hsel
      rw [h1, h2]
      cases hl : loadEntry fs dir e with
      | error err =>
        simp only [List.map_cons, hl]
        constructor
        · intro h
          cases h
        · rintro ⟨loaded, _, hm⟩
          cases loaded with
          | nil => simp at hm
          | cons a b =>
            simp only [List.map_cons, List.cons.injEq] at hm
            cases hm.1
      | ok w =>
        simp only [List.map_cons, hl]
        rw [ih (acc ++ [w])]
        constructor
        · rintro ⟨loaded, hws, hm⟩
          exact ⟨w :: loaded, by simp [hws], by simp [hm]⟩
        · rintro ⟨loaded, hws, hm⟩
          cases loaded with
          | nil => simp at hm
          | cons a b =>
            simp only [List.map_cons, List.cons.injEq, Except.ok.injEq] at hm
            obtain ⟨ha, hb⟩ := hm
            subst ha
            exact ⟨b, by simp [hws], hb⟩

/-- The loop fails exactly when some considered entry fails to load. -/
theorem LoadWalletsLoop_error_iff {ReadableWallet Wallet : Type}
    (fs : WalletFiles ReadableWallet Wallet) (dir : String) (entries : List FileInfo)
    (acc : List Wallet) :
    (∃ err, LoadWalletsLoop fs dir entries acc = Except.error err) ↔
      ∃ e ∈ walletEntries fs entries, ∃ err, loadEntry fs dir e = Except.error err := by
  induction entries generalizing acc with
  | nil => simp [LoadWalletsLoop, walletEntries]
  | cons e rest ih =>
    cases hsel : (e.IsRegular && HasSuffix e.Name fs.WalletExt) with
    | false =>
      obtain ⟨h1, h2⟩ := LoadWalletsLoop_skip fs dir e rest acc hsel
      rw [h1, h2]
      exact ih acc
    | true =>
      obtain ⟨h1, h2⟩ := LoadWalletsLoop_select fs dir e rest acc hsel
      rw [h1, h2]
      cases hl : loadEntry fs dir e with
      | error err =>
        simp only []
        constructor
        · intro _
          exact ⟨e, List.mem_cons_self _ _, err, hl⟩
        · intro _
          exact ⟨err, rfl⟩
      | ok w =>
        simp only []
        rw [ih (acc ++ [w])]
        constructor
        · rintro ⟨e1, he1, herr⟩
          exact ⟨e1, List.mem_cons_of_mem _ he1, herr⟩
        · rintro ⟨e1, he1, err, herr⟩
          rcases List.mem_cons.mp he1 with h | h
          · subst h
            rw [hl] at herr
            cases herr
          · exact ⟨e1, h, err, herr⟩

/-! ## Claims on wallet loading -/

/-- C20: `LoadWallets` considers only the regular entries of the directory
whose name ends in `WalletExt`.  If the directory cannot be read it returns
that error.  Otherwise it returns wallets `ws` exactly when each considered
entry, in directory order, loads and converts to the corresponding wallet of
`ws` with its filename set to the entry name; and it returns an error exactly
when one of the considered entries fails to load or convert.  Other entries
contribute nothing and cannot cause a failure. -/
theorem LoadWallets_considers_wallet_files {ReadableWallet Wallet : Type}
    (fs : WalletFiles ReadableWallet Wallet) (dir : String) :
    (∀ err, fs.ReadDir dir = Except.error err → LoadWallets fs dir = Except.error err) ∧
    (∀ entries, fs.ReadDir dir = Except.ok entries →
      (∀ ws, LoadWallets fs dir = Except.ok ws ↔
        (walletEntries fs entries).map (loadEntry fs dir) = ws.map Except.ok) ∧
      ((∃ err, LoadWallets fs dir = Except.error err) ↔
        ∃ e ∈ walletEntries fs entries, ∃ err, loadEntry fs dir e = Except.error err)) ∧
    ((∃ err, LoadWallets fs dir = Except.error err) ↔
      (∃ err, fs.ReadDir dir = Except.error err) ∨
      ∃ entries, fs.ReadDir dir = Except.ok entries ∧
        ∃ e ∈ walletEntries fs entries, ∃ err, loadEntry fs dir e = Except.error err) := by
  refine ⟨?_, ?_, ?_⟩
  · intro err h
    unfold LoadWallets
    rw [h]
  · intro entries h
    unfold LoadWallets
    rw [h]
    simp only []
    constructor
    · intro ws
      rw [LoadWalletsLoop_ok_iff]
      simp
    · exact LoadWalletsLoop_error_iff fs dir entries []
  · unfold LoadWallets
    cases h : fs.ReadDir dir with
    | error err => simp
    | ok entries =>
      simp only []
      rw [LoadWalletsLoop_error_iff]
      simp

theorem LoadWallets_considers_wallet_files_witness :
    exampleWalletFiles.ReadDir "wallets" =
      Except.ok [⟨"a.wlt", true⟩, ⟨"a.wlt.bak", true⟩, ⟨"old.wlt", false⟩, ⟨"b.wlt", true⟩] ∧
    walletEntries exampleWalletFiles
        [⟨"a.wlt", true⟩, ⟨"a.wlt.bak", true⟩, ⟨"old.wlt", false⟩, ⟨"b.wlt", true⟩] =
      [⟨"a.wlt", true⟩, ⟨"b.wlt", true⟩] ∧
    LoadWallets exampleWalletFiles "wallets" = Except.ok [(1, "a.wlt"), (2, "b.wlt")] ∧
    LoadWallets exampleWalletFiles "missing" = Except.error "no such directory" :=
  ⟨rfl, by decide,
    ((LoadWallets_considers_wallet_files exampleWalletFiles "wallets").2.1 _ rfl).1
      [(1, "a.wlt"), (2, "b.wlt")] |>.mpr rfl,
    (LoadWallets_considers_wallet_files exampleWalletFiles "missing").1 _ rfl⟩

/-! ## Lemmas on announcing all transactions -/

/-- One iteration of the announce loop, by the outcome of its broadcast. -/
theorem announceChunks_cons (env : Env) (d : Daemon) (hs : List SHA256)
    (rest : List (List SHA256)) :
    Daemon.announceChunks env d (hs :: rest) =
      (match env.poolBroadcastMessage d.calls (Message.AnnounceTxns hs) with
        | some err => (d.record (announceCall hs), some err)
        | none => Daemon.announceChunks env (d.record (announceCall hs)) rest) := by
  rw [Daemon.announceChunks]
  unfold Daemon.BroadcastMessage announceCall
  cases env.poolBroadcastMessage d.calls (Message.AnnounceTxns hs) <;> rfl

/-- When every broadcast succeeds, every chunk is broadcast, in order, and the
loop ends with a nil error. -/
theorem announceChunks_all_ok (env : Env) (chunks : List (List SHA256)) (d : Daemon)
    (h : ∀ i hs, chunks[i]? = some hs →
      env.poolBroadcastMessage (d.calls ++ (chunks.take i).map announceCall)
        (Message.AnnounceTxns hs) = none) :
    Daemon.announceChunks env d chunks =
      ({ d with calls := d.calls ++ chunks.map announceCall }, none) := by
  induction chunks generalizing d with
  | nil => simp [Daemon.announceChunks]
  | cons c rest ih =>
    have h0 := h 0 c (by simp)
    simp only [List.take_zero, List.map_nil, List.append_nil] at h0
    rw [announceChunks_cons, h0]
    simp only []
    rw [ih (d.record (announceCall c))]
    · simp [Daemon.record]
    · intro i hs hi
      have := h (i + 1) hs (by simpa using hi)
      simpa [Daemon.record] using this

/-- When the broadcast of chunk `i` is the first to fail, exactly the chunks up
to and including `i` are broadcast and the loop ends with that error. -/
theorem announceChunks_first_failure (env : Env) (chunks : List (List SHA256)) (d : Daemon)
    (i : Nat) (hs : List SHA256) (err : Error)
    (hi : chunks[i]? = some hs)
    (hbefore : ∀ j hj, j < i → chunks[j]? = some hj →
      env.poolBroadcastMessage (d.calls ++ (chunks.take j).map announceCall)
        (Message.AnnounceTxns hj) = none)
    (hfail : env.poolBroadcastMessage (d.calls ++ (chunks.take i).map announceCall)
      (Message.AnnounceTxns hs) = some err) :
    Daemon.announceChunks env d chunks =
      ({ d with calls := d.calls ++ (chunks.take (i + 1)).map announceCall }, some err) := by
  induction chunks generalizing d i with
  | nil => simp at hi
  | cons c rest ih =>
    cases i with
    | zero =>
      simp only [List.getElem?_cons_zero, Option.some.injEq] at hi
      subst hi
      simp only [List.take_zero, List.map_nil, List.append_nil] at hfail
      rw [announceChunks_cons, hfail]
      simp [Daemon.record]
    | succ k =>
      have h0 := hbefore 0 c (by omega) (by simp)
      simp only [List.take_zero, List.map_nil, List.append_nil] at h0
      rw [announceChunks_cons, h0]
      simp only []
      rw [ih (d.record (announceCall c)) k (by simpa using hi)]
      · simp [Daemon.record]
      · intro j hj hjk hjs
        have := hbefore (j + 1) hj (by omega) (by simpa using hjs)
        simpa [Daemon.record] using this
      · simpa [Daemon.record] using hfail

/-- The announce loop never touches the configuration or the connection
table. -/
theorem announceChunks_frame (env : Env) (chunks : List (List SHA256)) (d : Daemon) :
    (Daemon.announceChunks env d chunks).1.Config = d.Config ∧
    (Daemon.announceChunks env d chunks).1.connections = d.connections := by
  induction chunks generalizing d with
  | nil => simp [Daemon.announceChunks]
  | cons c rest ih =>
    rw [announceChunks_cons]
    cases env.poolBroadcastMessage d.calls (Message.AnnounceTxns c) with
    | some err => exact ⟨rfl, rfl⟩
    | none => exact ih (d.record (announceCall c))

/-! ## Claims on announcing all transactions -/

/-- C21: when outgoing connections are enabled and the chain engine returns
the valid unconfirmed hashes, `AnnounceAllTxns` broadcasts one `AnnounceTxns`
message per chunk of `divideHashes(hashes, MaxTxnAnnounceNum)`, in chunk order.
If every broadcast succeeds it broadcasts all chunks and returns nil; if the
broadcast of chunk `i` is the first to fail it has broadcast exactly the chunks
up to and including `i` and returns that error; with no hashes it broadcasts
nothing.  The connection table is never changed. -/
theorem AnnounceAllTxns_batches (env : Env) (dm : Daemon) (hashes : List SHA256)
    (hout : dm.Config.DisableOutgoingConnections = false)
    (hget : env.visorGetAllValidUnconfirmedTxHashes dm.calls = Except.ok hashes) :
    ((∀ i hs, (divideHashes hashes dm.Config.MaxTxnAnnounceNum)[i]? = some hs →
        env.poolBroadcastMessage
          (dm.calls ++ [Call.visorGetAllValidUnconfirmedTxHashes] ++
            ((divideHashes hashes dm.Config.MaxTxnAnnounceNum).take i).map announceCall)
          (Message.AnnounceTxns hs) = none) →
      (dm.AnnounceAllTxns env).2 = none ∧
      (dm.AnnounceAllTxns env).1.calls =
        dm.calls ++ [Call.visorGetAllValidUnconfirmedTxHashes] ++
          (divideHashes hashes dm.Config.MaxTxnAnnounceNum).map announceCall) ∧
    (∀ i hs err, (divideHashes hashes dm.Config.MaxTxnAnnounceNum)[i]? = some hs →
      (∀ j hj, j < i → (divideHashes hashes dm.Config.MaxTxnAnnounceNum)[j]? = some hj →
        env.poolBroadcastMessage
          (dm.calls ++ [Call.visorGetAllValidUnconfirmedTxHashes] ++
            ((divideHashes hashes dm.Config.MaxTxnAnnounceNum).take j).map announceCall)
          (Message.AnnounceTxns hj) = none) →
      env.poolBroadcastMessage
          (dm.calls ++ [Call.visorGetAllValidUnconfirmedTxHashes] ++
            ((divideHashes hashes dm.Config.MaxTxnAnnounceNum).take i).map announceCall)
          (Message.AnnounceTxns hs) = some err →
      (dm.AnnounceAllTxns env).2 = some err ∧
      (dm.AnnounceAllTxns env).1.calls =
        dm.calls ++ [Call.visorGetAllValidUnconfirmedTxHashes] ++
          ((divideHashes hashes dm.Config.MaxTxnAnnounceNum).take (i + 1)).map announceCall) ∧
    (hashes = [] →
      (dm.AnnounceAllTxns env).2 = none ∧
      (dm.AnnounceAllTxns env).1.calls =
        dm.calls ++ [Call.visorGetAllValidUnconfirmedTxHashes]) ∧
    (dm.AnnounceAllTxns env).1.connections = dm.connections := by
  have e : dm.AnnounceAllTxns env =
      Daemon.announceChunks env (dm.record Call.visorGetAllValidUnconfirmedTxHashes)
        (divideHashes hashes dm.Config.MaxTxnAnnounceNum) := by
    unfold Daemon.AnnounceAllTxns
    rw [if_neg (by simp [hout]), hget]
  rw [e]
  refine ⟨?_, ?_, ?_, ?_⟩
  · intro h
    rw [announceChunks_all_ok env _ (dm.record Call.visorGetAllValidUnconfirmedTxHashes) h]
    exact ⟨rfl, rfl⟩
  · intro i hs err hi hbefore hfail
    rw [announceChunks_first_failure env _ (dm.record Call.visorGetAllValidUnconfirmedTxHashes)
      i hs err hi hbefore hfail]
    exact ⟨rfl, rfl⟩
  · intro hnil
    subst hnil
    simp [divideHashes, Daemon.announceChunks, Daemon.record]
  · exact (announceChunks_frame env _ _).2

theorem AnnounceAllTxns_batches_witness :
    exampleDaemonTwoPerMessage.Config.DisableOutgoingConnections = false ∧
    exampleEnv.visorGetAllValidUnconfirmedTxHashes exampleDaemonTwoPerMessage.calls =
      Except.ok [101, 102, 103, 104, 105] ∧
    divideHashes ([101, 102, 103, 104, 105] : List SHA256)
        exampleDaemonTwoPerMessage.Config.MaxTxnAnnounceNum =
      [[101, 102], [103, 104], [105]] ∧
    (exampleDaemonTwoPerMessage.AnnounceAllTxns exampleEnv).1.calls =
      [Call.visorGetAllValidUnconfirmedTxHashes, announceCall [101, 102],
        announceCall [103, 104], announceCall [105]] ∧
    ((exampleDaemonTwoPerMessage.AnnounceAllTxns exampleEnv).2 = none ∧
      (exampleDaemonTwoPerMessage.AnnounceAllTxns exampleEnv).1.calls =
        exampleDaemonTwoPerMessage.calls ++ [Call.visorGetAllValidUnconfirmedTxHashes] ++
          (divideHashes ([101, 102, 103, 104, 105] : List SHA256)
            exampleDaemonTwoPerMessage.Config.MaxTxnAnnounceNum).map announceCall) ∧
    (exampleDaemonTwoPerMessage.AnnounceAllTxns exampleEnvAnnounceFails).1.calls =
      [Call.visorGetAllValidUnconfirmedTxHashes, announceCall [101, 102],
        announceCall [103, 104]] ∧
    ((exampleDaemonTwoPerMessage.AnnounceAllTxns exampleEnvAnnounceFails).2 =
        some "Connection pool is empty" ∧
      (exampleDaemonTwoPerMessage.AnnounceAllTxns exampleEnvAnnounceFails).1.calls =
        exampleDaemonTwoPerMessage.calls ++ [Call.visorGetAllValidUnconfirmedTxHashes] ++
          ((divideHashes ([101, 102, 103, 104, 105] : List SHA256)
            exampleDaemonTwoPerMessage.Config.MaxTxnAnnounceNum).take (1 + 1)).map
            announceCall) ∧
    ((exampleDaemonTwoPerMessage.AnnounceAllTxns exampleEnvNoHashes).2 = none ∧
      (exampleDaemonTwoPerMessage.AnnounceAllTxns exampleEnvNoHashes).1.calls =
        exampleDaemonTwoPerMessage.calls ++ [Call.visorGetAllValidUnconfirmedTxHashes]) :=
  ⟨by decide, rfl, by decide, by decide,
    (AnnounceAllTxns_batches exampleEnv exampleDaemonTwoPerMessage [101, 102, 103, 104, 105]
      (by decide) rfl).1 (fun _ _ _ => rfl),
    by decide,
    (AnnounceAllTxns_batches exampleEnvAnnounceFails exampleDaemonTwoPerMessage
      [101, 102, 103, 104, 105] (by decide) rfl).2.1 1 [103, 104] "Connection pool is empty"
      (by decide)
      (by
        intro j hj hlt hjs
        have hj0 : j = 0 := by omega
        subst hj0
        have h0 : (divideHashes ([101, 102, 103, 104, 105] : List SHA256)
            exampleDaemonTwoPerMessage.Config.MaxTxnAnnounceNum)[0]? = some [101, 102] := by
          decide
        rw [h0] at hjs
        cases hjs
        decide)
      (by decide),
    (AnnounceAllTxns_batches exampleEnvNoHashes exampleDaemonTwoPerMessage [] (by decide)
      rfl).2.2.1 rfl⟩

/-! ## Claims on message processing -/

/-- C22: for every message event, `processMessageEvent` invokes the process
effect of the message exactly once, as its last step.  Before it, the only call
it may make is one `NoIntroduction` disconnect, made exactly when the address
has a row that has not introduced and the message is not an Introduction; in
that case the message is still processed, right after the disconnect request.
A message from an address with no row passes the gate with no disconnect. -/
theorem processMessageEvent_process_once (env : Env) (dm : Daemon) (e : messageEvent) :
    ∃ gate,
      gate =
        (if dm.needsIntro e.Context.Addr = true ∧ e.Message.isIntroduction = false then
          [Call.poolDisconnect e.Context.Addr DisconnectReason.ErrDisconnectNoIntroduction]
        else []) ∧
      (dm.processMessageEvent env e).calls =
        dm.calls ++ gate ++ [Call.messageProcess e] ++
          (env.messageProcess (dm.calls ++ gate) dm.connections e).2 ∧
      (dm.processMessageEvent env e).connections =
        (env.messageProcess (dm.calls ++ gate) dm.connections e).1 ∧
      (gate ++ [Call.messageProcess e]).count (Call.messageProcess e) = 1 ∧
      ((∃ c, dm.connections.get e.Context.Addr = some c ∧
          c.State ≠ ConnectionState.Introduced) →
        e.Message.isIntroduction = false →
        gate =
          [Call.poolDisconnect e.Context.Addr DisconnectReason.ErrDisconnectNoIntroduction]) ∧
      (dm.connections.get e.Context.Addr = none → gate = []) := by
  refine ⟨_, rfl, ?_, ?_, ?_, ?_, ?_⟩
  · unfold Daemon.processMessageEvent
    cases hn : dm.needsIntro e.Context.Addr <;> cases hm : e.Message.isIntroduction <;>
      simp [Daemon.messageProcess, Daemon.Disconnect, Daemon.record]
  · unfold Daemon.processMessageEvent
    cases hn : dm.needsIntro e.Context.Addr <;> cases hm : e.Message.isIntroduction <;>
      simp [Daemon.messageProcess, Daemon.Disconnect, Daemon.record]
  · split <;> simp [List.count_cons]
  · rintro ⟨c, hget, hstate⟩ hmsg
    have hn : dm.needsIntro e.Context.Addr = true := by
      unfold Daemon.needsIntro
      rw [hget]
      simp [connection.HasIntroduced, hstate]
    simp [hn, hmsg]
  · intro hget
    have hn : dm.needsIntro e.Context.Addr = false := by
      unfold Daemon.needsIntro
      rw [hget]
    simp [hn]

theorem processMessageEvent_process_once_witness :
    (exampleDaemonBusy.processMessageEvent exampleEnv
        ⟨Message.GetPeers, ⟨"10.0.0.5:5000", 1⟩⟩).calls =
      [Call.poolDisconnect "10.0.0.5:5000" DisconnectReason.ErrDisconnectNoIntroduction,
        Call.messageProcess ⟨Message.GetPeers, ⟨"10.0.0.5:5000", 1⟩⟩] ∧
    exampleDaemonBusy.connections.get "192.0.2.44:6000" = none ∧
    (exampleDaemonBusy.processMessageEvent exampleEnv
        ⟨Message.GetPeers, ⟨"192.0.2.44:6000", 3⟩⟩).calls =
      [Call.messageProcess ⟨Message.GetPeers, ⟨"192.0.2.44:6000", 3⟩⟩] ∧
    ∃ gate,
      gate =
        (if exampleDaemonBusy.needsIntro "10.0.0.5:5000" = true ∧
            Message.GetPeers.isIntroduction = false then
          [Call.poolDisconnect "10.0.0.5:5000" DisconnectReason.ErrDisconnectNoIntroduction]
        else []) ∧
      (exampleDaemonBusy.processMessageEvent exampleEnv
          ⟨Message.GetPeers, ⟨"10.0.0.5:5000", 1⟩⟩).calls =
        exampleDaemonBusy.calls ++ gate ++
          [Call.messageProcess ⟨Message.GetPeers, ⟨"10.0.0.5:5000", 1⟩⟩] ++
          (exampleEnv.messageProcess (exampleDaemonBusy.calls ++ gate)
            exampleDaemonBusy.connections ⟨Message.GetPeers, ⟨"10.0.0.5:5000", 1⟩⟩).2 ∧
      (exampleDaemonBusy.processMessageEvent exampleEnv
          ⟨Message.GetPeers, ⟨"10.0.0.5:5000", 1⟩⟩).connections =
        (exampleEnv.messageProcess (exampleDaemonBusy.calls ++ gate)
          exampleDaemonBusy.connections ⟨Message.GetPeers, ⟨"10.0.0.5:5000", 1⟩⟩).1 ∧
      (gate ++ [Call.messageProcess ⟨Message.GetPeers, ⟨"10.0.0.5:5000", 1⟩⟩]).count
          (Call.messageProcess ⟨Message.GetPeers, ⟨"10.0.0.5:5000", 1⟩⟩) = 1 ∧
      ((∃ c, exampleDaemonBusy.connections.get "10.0.0.5:5000" = some c ∧
          c.State ≠ ConnectionState.Introduced) →
        Message.GetPeers.isIntroduction = false →
        gate =
          [Call.poolDisconnect "10.0.0.5:5000"
            DisconnectReason.ErrDisconnectNoIntroduction]) ∧
      (exampleDaemonBusy.connections.get "10.0.0.5:5000" = none → gate = []) :=
  ⟨by decide, by decide, by decide,
    processMessageEvent_process_once exampleEnv exampleDaemonBusy
      ⟨Message.GetPeers, ⟨"10.0.0.5:5000", 1⟩⟩⟩

end Skycoin
